import Mathlib

/-!
Verification of the BMW FRM D-Flash to EEPROM repair tool.

The repository contains two implementations of the core algorithms:
* the class `FrmConverter` (conversion service module), embedded below in
  namespace `FrmConverter`;
* the bundled server (`server/routes.ts` inside the esbuild output), embedded
  below in namespace `Server`.

Byte buffers (`Uint8Array` / Node `Buffer`) are modelled as `List Nat`, with
each entry intended to be `< 256`.  `buf[i]` is `buf.getD i 0`;
`buf.subarray`/`slice(a, b)` is `(buf.drop a).take (b - a)` (both clamp at the
end of the buffer, like JavaScript); `set`/`write`/`copy` at an in-bounds
offset is `writeBytes`.  32-bit arithmetic is `Nat` with explicit `% 2^32`
(`& 0xFFFFFFFF` in the source keeps the low 32 bits, i.e. mod 2^32).
ASCII strings are kept as their byte lists; `TextDecoder('ascii')` maps bytes
≥ 0x80 to characters outside every alphabet tested here, so byte-level
comparisons are faithful.
-/

set_option maxRecDepth 100000

/-- Overwrite `data.length` bytes of `b` starting at `off`
    (`Uint8Array.set(data, off)` / `Buffer.write` / `Buffer.copy`;
    all uses in the sources are in bounds). -/
def writeBytes (b : List Nat) (off : Nat) (data : List Nat) : List Nat :=
  b.take off ++ data ++ b.drop (off + data.length)

/-- `buf.subarray(start, stop)` / `buf.slice(start, stop)`: clamps at the end
    of the buffer and yields fewer than `stop - start` bytes when it runs off
    the end, exactly like JavaScript. -/
def subarray (b : List Nat) (start stop : Nat) : List Nat :=
  (b.drop start).take (stop - start)

/-- Byte list of an ASCII string literal. -/
def asciiBytes (s : String) : List Nat :=
  s.data.map Char.toNat

/-- The four bytes of `v` in little-endian order (`DataView.setUint32(·, v, true)`
    / `Buffer.writeUInt32LE`); the source values are always `< 2^32`. -/
def leBytes (v : Nat) : List Nat :=
  [v % 256, v / 256 % 256, v / 65536 % 256, v / 16777216 % 256]

/-- Write `v` as a little-endian 32-bit integer at `off`. -/
def setUint32LE (b : List Nat) (off v : Nat) : List Nat :=
  writeBytes b off (leBytes v)

/-- Read a little-endian unsigned 32-bit integer at `off`
    (`DataView.getUint32(·, true)` / `Buffer.readUInt32LE`). -/
def getUint32LE (b : List Nat) (off : Nat) : Nat :=
  b.getD off 0 + 256 * b.getD (off + 1) 0 + 65536 * b.getD (off + 2) 0 +
    16777216 * b.getD (off + 3) 0

/-- Read a big-endian unsigned 32-bit integer at `off`
    (`DataView.getUint32(·, false)`). -/
def getUint32BE (b : List Nat) (off : Nat) : Nat :=
  16777216 * b.getD off 0 + 65536 * b.getD (off + 1) 0 + 256 * b.getD (off + 2) 0 +
    b.getD (off + 3) 0

/-- `hay.includes(pat)` for byte sequences: some contiguous run of `hay`
    equals `pat`. -/
def containsSeq (hay pat : List Nat) : Bool :=
  (List.range (hay.length + 1)).any (fun i => subarray hay i (i + pat.length) == pat)

/-- One character of the identifier (VIN) alphabet of the regular expression
    `[A-HJ-NPR-Z0-9]`, on ASCII codes: A–H = 65–72, J–N = 74–78, P = 80,
    R–Z = 82–90, 0–9 = 48–57.  The codes of I (73), O (79) and Q (81) are
    excluded. -/
def isVinChar (c : Nat) : Bool :=
  decide ((65 ≤ c ∧ c ≤ 72) ∨ (74 ≤ c ∧ c ≤ 78) ∨ c = 80 ∨ (82 ≤ c ∧ c ≤ 90) ∨
    (48 ≤ c ∧ c ≤ 57))

/-- The test `/^[A-HJ-NPR-Z0-9]{17}$/.test(s)`: exactly 17 characters, all in
    the identifier alphabet. -/
def isValidVin (s : List Nat) : Bool :=
  s.length == 17 && s.all isVinChar

/-- `buf.toString("ascii")` at the byte level: Node's ascii decoder strips
    the high bit of every byte (`byte & 0x7F`) before mapping it to a
    character.  (The `TextDecoder("ascii")` used by the class converter is
    windows-1252 and does *not* mask.) -/
def asciiMask (b : List Nat) : List Nat :=
  b.map (fun c => c % 128)

/-- `Math.round(num / den)` for non-negative arguments: round half up,
    `⌊(num / den) + 1/2⌋ = (2 * num + den) / (2 * den)` in `Nat` division.
    (For `den = 0` JavaScript yields `NaN`; that case is unreachable in every
    theorem below.) -/
def jsRound (num den : Nat) : Nat :=
  (2 * num + den) / (2 * den)

-- ----------------------------------------------------------------------
-- Basic lemmas about the buffer primitives
-- ----------------------------------------------------------------------

theorem length_writeBytes (b data : List Nat) (off : Nat)
    (h : off + data.length ≤ b.length) :
    (writeBytes b off data).length = b.length := by
  simp [writeBytes]
  omega

theorem getD_writeBytes (b data : List Nat) (off i : Nat)
    (h : off + data.length ≤ b.length) :
    (writeBytes b off data).getD i 0 =
      if off ≤ i ∧ i < off + data.length then data.getD (i - off) 0
      else b.getD i 0 := by
  have hto : (b.take off).length = off := by
    rw [List.length_take]; omega
  simp only [writeBytes, List.getD_eq_getElem?_getD, List.append_assoc]
  by_cases h1 : i < off
  · rw [List.getElem?_append_left (by omega : i < (b.take off).length),
      List.getElem?_take_of_lt h1, if_neg (by omega)]
  · rw [List.getElem?_append_right (by omega : (b.take off).length ≤ i), hto]
    by_cases h2 : i < off + data.length
    · rw [List.getElem?_append_left (by omega : i - off < data.length),
        if_pos (by omega : off ≤ i ∧ i < off + data.length)]
    · rw [List.getElem?_append_right (by omega : data.length ≤ i - off),
        List.getElem?_drop]
      have harith : off + data.length + (i - off - data.length) = i := by omega
      rw [harith, if_neg (by omega)]

theorem getD_replicate_lt (n a i : Nat) (h : i < n) :
    (List.replicate n a).getD i 0 = a := by
  rw [List.getD_eq_getElem?_getD, List.getElem?_replicate]
  simp [h]

theorem length_subarray (b : List Nat) (start stop : Nat) :
    (subarray b start stop).length = min (stop - start) (b.length - start) := by
  simp [subarray]

theorem getD_subarray (b : List Nat) (start stop k : Nat) (h : k < stop - start) :
    (subarray b start stop).getD k 0 = b.getD (start + k) 0 := by
  simp only [subarray, List.getD_eq_getElem?_getD]
  rw [List.getElem?_take_of_lt h, List.getElem?_drop]

theorem getD_setUint32LE (b : List Nat) (off v i : Nat)
    (h : off + 4 ≤ b.length) :
    (setUint32LE b off v).getD i 0 =
      if off ≤ i ∧ i < off + 4 then (leBytes v).getD (i - off) 0
      else b.getD i 0 := by
  have := getD_writeBytes b (leBytes v) off i (by simpa [leBytes] using h)
  simpa [setUint32LE, leBytes] using this

theorem length_setUint32LE (b : List Nat) (off v : Nat) (h : off + 4 ≤ b.length) :
    (setUint32LE b off v).length = b.length := by
  have := length_writeBytes b (leBytes v) off (by simpa [leBytes] using h)
  simpa [setUint32LE] using this

/-- Reading back the four little-endian bytes of `v` recovers `v % 2^32`. -/
theorem leBytes_decode (v : Nat) :
    (leBytes v).getD 0 0 + 256 * (leBytes v).getD 1 0 +
      65536 * (leBytes v).getD 2 0 + 16777216 * (leBytes v).getD 3 0 =
      v % 4294967296 := by
  simp [leBytes]
  omega

/-- First-match characterisation of `List.findSome?` over a list of offsets,
    via positional access. -/
theorem findSome?_first {β : Type} (f : Nat → Option β) :
    ∀ (l : List Nat) (v : β), l.findSome? f = some v →
      ∃ i, i < l.length ∧ f (l.getD i 0) = some v ∧
        ∀ j, j < i → f (l.getD j 0) = none := by
  intro l
  induction l with
  | nil => intro v h; simp [List.findSome?] at h
  | cons a t ih =>
    intro v h
    rw [List.findSome?] at h
    cases hfa : f a with
    | some b =>
      rw [hfa] at h
      refine ⟨0, by simp, ?_, by omega⟩
      simpa [hfa] using h
    | none =>
      rw [hfa] at h
      obtain ⟨i, hi, hf, hprev⟩ := ih v h
      refine ⟨i + 1, by simpa using Nat.succ_lt_succ hi, by simpa using hf, ?_⟩
      intro j hj
      cases j with
      | zero => simpa using hfa
      | succ j0 => simpa using hprev j0 (by omega)

/-- `List.findSome?` returns `none` iff no element produces a value. -/
theorem findSome?_none {β : Type} (f : Nat → Option β) :
    ∀ l : List Nat, l.findSome? f = none ↔ ∀ a ∈ l, f a = none := by
  intro l
  induction l with
  | nil => simp [List.findSome?]
  | cons a t ih =>
    rw [List.findSome?]
    cases hfa : f a with
    | some b => simp [hfa]
    | none => simp [hfa, ih]

/-- Accumulating a sum with a reduction modulo `M` after every addition (the
    `checksum = (checksum + b) & 0xFFFFFFFF` loop) equals the plain sum
    modulo `M`. -/
theorem foldl_add_mod (M : Nat) :
    ∀ (l : List Nat) (c : Nat),
      l.foldl (fun acc b => (acc + b) % M) (c % M) = (c + l.sum) % M := by
  intro l
  induction l with
  | nil => intro c; simp
  | cons a t ih =>
    intro c
    simp only [List.foldl_cons, List.sum_cons]
    calc List.foldl (fun acc b => (acc + b) % M) ((c % M + a) % M) t
        = List.foldl (fun acc b => (acc + b) % M) ((c + a) % M) t := by
          rw [Nat.mod_add_mod]
      _ = (c + a + t.sum) % M := ih (c + a)
      _ = (c + (a + t.sum)) % M := by ring_nf

theorem asciiMask_replicate (n a : Nat) :
    asciiMask (List.replicate n a) = List.replicate n (a % 128) := by
  unfold asciiMask
  rw [List.map_replicate]

-- ----------------------------------------------------------------------
-- Embedding of the `FrmConverter` class (conversion service module)
-- ----------------------------------------------------------------------

namespace FrmConverter

/-- `EEPROM_SIZE = 4096`. -/
def EEPROM_SIZE : Nat := 4096

/-- `DFLASH_SIZE = 32768`. -/
def DFLASH_SIZE : Nat := 32768

/-- `VIN_PATTERNS`: the three scanned window offsets (each of length 17). -/
def VIN_PATTERNS : List Nat := [0x1000, 0x1500, 0x2000]

/-- `MILEAGE_OFFSETS`. -/
def MILEAGE_OFFSETS : List Nat := [0x2100, 0x2200, 0x2300, 0x2400]

/-- The extracted vehicle fields.  The VIN is kept as its ASCII byte list
    (see the note on `TextDecoder` at the top of the file). -/
structure VehicleData where
  vin : Option (List Nat)
  mileage : Option Nat
  model : Option String
deriving DecidableEq

/-- `ConversionResult`; a missing optional field of the source object is
    `none`. -/
structure ConversionResult where
  success : Bool
  eepromData : Option (List Nat) := none
  error : Option String := none
  vehicleData : Option VehicleData := none
deriving DecidableEq

/-- `extractVIN`: try each pattern in order, return the first 17-byte slice
    that passes the `[A-HJ-NPR-Z0-9]{17}` test. -/
def extractVIN (dflashData : List Nat) : Option (List Nat) :=
  VIN_PATTERNS.findSome? (fun offset =>
    let vin := subarray dflashData offset (offset + 17)
    if isValidVin vin then some vin else none)

/-- `extractMileage`: at each offset (when 4 bytes fit), first try the
    little-endian reading, then the big-endian one; accept a value strictly
    between 0 and 1,000,000. -/
def extractMileage (dflashData : List Nat) : Option Nat :=
  MILEAGE_OFFSETS.findSome? (fun offset =>
    if offset + 4 ≤ dflashData.length then
      let mileageLE := getUint32LE dflashData offset
      let mileageBE := getUint32BE dflashData offset
      if 0 < mileageLE ∧ mileageLE < 1000000 then some mileageLE
      else if 0 < mileageBE ∧ mileageBE < 1000000 then some mileageBE
      else none
    else none)

/-- The static WMI (first three VIN characters) lookup table. -/
def modelMap (wmi : List Nat) : Option String :=
  if wmi = asciiBytes "WBA" then some "BMW 3 Series"
  else if wmi = asciiBytes "WBY" then some "BMW X3"
  else if wmi = asciiBytes "5UX" then some "BMW X3 (US)"
  else if wmi = asciiBytes "WBX" then some "BMW X1"
  else if wmi = asciiBytes "WBS" then some "BMW M Series"
  else if wmi = asciiBytes "4US" then some "BMW (US Market)"
  else none

/-- `extractModel`: look the WMI up; an unmapped WMI falls back to
    `BMW (Unknown Model)` (the `modelMap[wmi] || fallback` of the source —
    every mapped label is a non-empty, hence truthy, string). -/
def extractModel (dflashData : List Nat) : Option String :=
  match extractVIN dflashData with
  | none => none
  | some vin => some ((modelMap (vin.take 3)).getD "BMW (Unknown Model)")

/-- `extractVehicleData`. -/
def extractVehicleData (dflashData : List Nat) : VehicleData :=
  { vin := extractVIN dflashData,
    mileage := extractMileage dflashData,
    model := extractModel dflashData }

/-- The fixed 16-byte header: magic, version, data offset, reserved. -/
def headerBytes : List Nat :=
  [0xAA, 0x55, 0xFF, 0x00,
   0x01, 0x00, 0x00, 0x00,
   0x00, 0x10, 0x00, 0x00,
   0x00, 0x00, 0x00, 0x00]

/-- `writeEEPROMHeader`: put the header at offset 0. -/
def writeEEPROMHeader (eepromData : List Nat) : List Nat :=
  writeBytes eepromData 0 headerBytes

/-- `writeVehicleData`: VIN (ASCII) at 0x10 when present, mileage
    (little-endian uint32) at 0x30 when present.  `if (vehicleData.vin)` and
    `if (vehicleData.mileage)` are JavaScript truthiness tests, so an empty
    string and the value 0 are also skipped (neither can actually be
    produced by the extractors). -/
def writeVehicleData (eepromData : List Nat) (vd : VehicleData) : List Nat :=
  let e1 := match vd.vin with
    | some vin => if vin.length = 0 then eepromData else writeBytes eepromData 0x10 vin
    | none => eepromData
  match vd.mileage with
  | some m => if m = 0 then e1 else setUint32LE e1 0x30 m
  | none => e1

/-- `writeConfigurationData`: four configuration bytes copied from fixed
    D-Flash offsets to EEPROM offset 0x100.  `dflashData[a] || d` is 0 when
    the byte is 0 or missing and `d = 0`, and `d` when the byte is 0 or
    missing and `d ≠ 0`; with missing bytes read as 0 this is
    `getD a 0` resp. `if getD a 0 = 0 then d else getD a 0`. -/
def writeConfigurationData (eepromData dflashData : List Nat) : List Nat :=
  let configData : List Nat :=
    [dflashData.getD 0x500 0,
     dflashData.getD 0x501 0,
     (if dflashData.getD 0x502 0 = 0 then 0x1E else dflashData.getD 0x502 0),
     dflashData.getD 0x503 0]
  writeBytes eepromData 0x100 configData

/-- `calculateChecksums`: sum the first `EEPROM_SIZE - 4` bytes, keeping only
    the low 32 bits after every addition, and store the result little-endian
    in the last 4 bytes. -/
def calculateChecksums (eepromData : List Nat) : List Nat :=
  let checksum := (List.range (EEPROM_SIZE - 4)).foldl
    (fun c i => (c + eepromData.getD i 0) % 4294967296) 0
  setUint32LE eepromData (EEPROM_SIZE - 4) checksum

/-- `convertDFlashToEEPROM`: reject wrong-sized input with a size-mismatch
    error; otherwise fill a 4096-byte buffer with 0xFF, write header, vehicle
    data, configuration and checksum.  Nothing in the success path can throw,
    so the surrounding try/catch is dead. -/
def convertDFlashToEEPROM (dflashData : List Nat) : ConversionResult :=
  if dflashData.length ≠ DFLASH_SIZE then
    { success := false,
      error := some ("Invalid D-Flash size. Expected " ++ toString DFLASH_SIZE ++
        " bytes, got " ++ toString dflashData.length ++ " bytes") }
  else
    let eepromData := List.replicate EEPROM_SIZE 0xFF
    let vehicleData := extractVehicleData dflashData
    let e1 := writeEEPROMHeader eepromData
    let e2 := writeVehicleData e1 vehicleData
    let e3 := writeConfigurationData e2 dflashData
    let e4 := calculateChecksums e3
    { success := true, eepromData := some e4, vehicleData := some vehicleData }

/-- The produced EEPROM image of a successful conversion (`[]` when the
    conversion failed, which only happens on a size mismatch). -/
def convertOutput (dflashData : List Nat) : List Nat :=
  ((convertDFlashToEEPROM dflashData).eepromData).getD []

/-- `detectFRMType`: search the ASCII decoding of the whole image for the
    marker substrings, in order. -/
def detectFRMType (dflashData : List Nat) : String :=
  if containsSeq dflashData (asciiBytes "XEQ384") then "FRM3 XEQ384"
  else if containsSeq dflashData (asciiBytes "XET512") then "FRM3 XET512"
  else if containsSeq dflashData (asciiBytes "FRM2") then "FRM2"
  else "FRM3 Unknown"

/-- The corruption analysis report. -/
structure CorruptionReport where
  corruptionLevel : Nat
  recoverableSectors : Nat
  totalSectors : Nat
deriving DecidableEq

/-- `analyzeDFlashCorruption`: split into 1024-byte sectors, count the
    sectors that are neither all 0x00 nor all 0xFF, and report
    `Math.round((recoverable / total) * 100)` (the quotient is exact in
    floating point for every reachable operand, so `jsRound` is faithful;
    for an empty input JavaScript would produce `NaN`, a case no theorem
    below touches). -/
def analyzeDFlashCorruption (dflashData : List Nat) : CorruptionReport :=
  let sectorSize := 1024
  let totalSectors := dflashData.length / sectorSize
  let recoverableSectors := (List.range totalSectors).countP (fun sector =>
    let sectorData := subarray dflashData (sector * sectorSize) (sector * sectorSize + sectorSize)
    let allZeros := sectorData.all (fun byte => byte == 0x00)
    let allOnes := sectorData.all (fun byte => byte == 0xFF)
    !allZeros && !allOnes)
  { corruptionLevel := jsRound (recoverableSectors * 100) totalSectors,
    recoverableSectors := recoverableSectors,
    totalSectors := totalSectors }

end FrmConverter

-- ----------------------------------------------------------------------
-- Embedding of the bundled server implementation (`server/routes.ts`)
-- ----------------------------------------------------------------------

namespace Server

/-- `detectFrmType`: only the first 16-byte window `[256, 272)` is searched
    for the markers; `signature2` (`[512, 528)`) is extracted but never
    consulted. -/
def detectFrmType (data : List Nat) : String :=
  let signature1 := subarray data 256 272
  let signature2 := subarray data 512 528
  let _ := signature2
  if containsSeq signature1 (asciiBytes "XEQ384") then "FRM3 XEQ384"
  else if containsSeq signature1 (asciiBytes "XET512") then "FRM3 XET512"
  else if data.length = 32768 then "FRM3 Unknown"
  else "FRM2"

/-- `extractVin`: scan offsets 4096, 4112, ..., 8176 (stride 16); each
    17-byte window is decoded with `toString("ascii")`, which strips the
    high bit of every byte, and the first decoding passing the
    `[A-HJ-NPR-Z0-9]{17}` test is returned (the *masked* characters, as in
    the source, where the decoded string itself is returned and later
    written). -/
def extractVin (data : List Nat) : Option (List Nat) :=
  (List.range' 4096 256 16).findSome? (fun offset =>
    let potential := asciiMask (subarray data offset (offset + 17))
    if isValidVin potential then some potential else none)

/-- `extractModel`: only three WMI values are mapped; every other prefix of a
    found VIN yields `null`. -/
def extractModel (data : List Nat) : Option String :=
  match extractVin data with
  | none => none
  | some vin =>
    let wmi := vin.take 3
    if wmi = asciiBytes "WBA" then some "BMW 3 Series"
    else if wmi = asciiBytes "WBY" then some "BMW X3"
    else if wmi = asciiBytes "5UX" then some "BMW X3 US"
    else none

/-- The static year table: ASCII codes of 1–9 (49–57) map to 2001–2009 and
    A–F (65–70) to 2010–2015.  `yearMap[c] || null` of the source is faithful
    because every mapped year is truthy. -/
def yearMap (c : Nat) : Option Nat :=
  if c = 49 then some 2001
  else if c = 50 then some 2002
  else if c = 51 then some 2003
  else if c = 52 then some 2004
  else if c = 53 then some 2005
  else if c = 54 then some 2006
  else if c = 55 then some 2007
  else if c = 56 then some 2008
  else if c = 57 then some 2009
  else if c = 65 then some 2010
  else if c = 66 then some 2011
  else if c = 67 then some 2012
  else if c = 68 then some 2013
  else if c = 69 then some 2014
  else if c = 70 then some 2015
  else none

/-- `extractYear`: the 10th character (0-indexed 9) of a found VIN, looked up
    in `yearMap`. -/
def extractYear (data : List Nat) : Option Nat :=
  match extractVin data with
  | none => none
  | some vin => yearMap (vin.getD 9 0)

/-- `data.readUInt32LE(offset)`: bounds-checked — Node throws
    `ERR_OUT_OF_RANGE` when the four bytes do not fit in the buffer. -/
def readUInt32LE (data : List Nat) (offset : Nat) : Except String Nat :=
  if offset + 4 ≤ data.length then Except.ok (getUint32LE data offset)
  else Except.error "ERR_OUT_OF_RANGE"

/-- The loop body of `extractMileage` over a list of offsets: each read may
    throw, a value strictly between 0 and 1,000,000 (`1e6`) returns
    immediately, and an exhausted list returns `null`. -/
def mileageScan (data : List Nat) : List Nat → Except String (Option Nat)
  | [] => Except.ok none
  | offset :: rest =>
    match readUInt32LE data offset with
    | Except.error e => Except.error e
    | Except.ok value =>
      if 0 < value ∧ value < 1000000 then Except.ok (some value)
      else mileageScan data rest

/-- `extractMileage`: scan offsets 8192, 8196, ..., 12284 (stride 4), reading
    little-endian uint32 only; accept the first value strictly between 0 and
    1,000,000.  A read past the end of the buffer (possible whenever the
    input is shorter than 12288 bytes) throws `ERR_OUT_OF_RANGE`. -/
def extractMileage (data : List Nat) : Except String (Option Nat) :=
  mileageScan data (List.range' 8192 1024 4)

/-- `extractConfigurationData`'s record. -/
structure ConfigFlags where
  xenonHeadlights : Bool
  angelEyes : Bool
  autoWipers : Bool
  comfortAccess : Bool
  followMeHome : Nat
deriving DecidableEq

/-- `extractConfigurationData`: bits of bytes 1280 and 1281 plus raw byte
    1282 (`data[1282] || 0` is the identity with missing bytes read as 0). -/
def extractConfigurationData (data : List Nat) : ConfigFlags :=
  { xenonHeadlights := (data.getD 1280 0) % 2 == 1,
    angelEyes := (data.getD 1280 0) / 2 % 2 == 1,
    autoWipers := (data.getD 1281 0) % 2 == 1,
    comfortAccess := (data.getD 1281 0) / 2 % 2 == 1,
    followMeHome := data.getD 1282 0 }

/-- `extractConfigurationFromDFlash` just delegates. -/
def extractConfigurationFromDFlash (data : List Nat) : ConfigFlags :=
  extractConfigurationData data

/-- JSON serialisation of a boolean. -/
def jsBool (b : Bool) : String :=
  if b then "true" else "false"

/-- `JSON.stringify` of a `ConfigFlags` object (property order is insertion
    order). -/
def configJson (c : ConfigFlags) : String :=
  "\x7b\"xenonHeadlights\":" ++ jsBool c.xenonHeadlights ++
    ",\"angelEyes\":" ++ jsBool c.angelEyes ++
    ",\"autoWipers\":" ++ jsBool c.autoWipers ++
    ",\"comfortAccess\":" ++ jsBool c.comfortAccess ++
    ",\"followMeHome\":" ++ toString c.followMeHome ++ "\x7d"

/-- `calculateEepromChecksums`: plain sum of all but the last 4 bytes (exact
    in floating point), masked to 32 bits and stored little-endian in the
    last 4 bytes. -/
def calculateEepromChecksums (eepromData : List Nat) : List Nat :=
  let checksum := (List.range (eepromData.length - 4)).foldl
    (fun c i => c + eepromData.getD i 0) 0
  setUint32LE eepromData (eepromData.length - 4) (checksum % 4294967296)

/-- The server's conversion result has no `vehicleData`. -/
structure ConversionResult where
  success : Bool
  eepromData : Option (List Nat) := none
  error : Option String := none
deriving DecidableEq

/-- `convertDFlashToEEPROM` of the bundled server: note there is **no size
    check** (the HTTP upload route checks the size before storing) and
    `Buffer.alloc(4096)` is **zero-filled**.  `if (vin)` skips null and the
    empty string; `if (mileage !== null)` skips only null; `if (config)` is
    always taken (an object is truthy).  The `try`/`catch` of the source
    turns the `ERR_OUT_OF_RANGE` throw of `extractMileage` (the only
    throwing operation in the body) into a `success: false` result with no
    artifact. -/
def convertDFlashToEEPROM (dflashData : List Nat) : ConversionResult :=
  let eepromData := List.replicate 4096 0
  let vin := extractVin dflashData
  let e1 := match vin with
    | some v => if v.length = 0 then eepromData else writeBytes eepromData 16 v
    | none => eepromData
  match extractMileage dflashData with
  | Except.error e => { success := false, eepromData := none, error := some e }
  | Except.ok mileage =>
    let e2 := match mileage with
      | some m => setUint32LE e1 48 m
      | none => e1
    let config := extractConfigurationFromDFlash dflashData
    let configBuffer := asciiBytes (configJson config)
    let e3 := writeBytes e2 256 (configBuffer.take (min configBuffer.length 1024))
    let e4 := calculateEepromChecksums e3
    { success := true, eepromData := some e4 }

/-- The produced EEPROM image (`[]` when the conversion failed). -/
def convertOutput (dflashData : List Nat) : List Nat :=
  ((convertDFlashToEEPROM dflashData).eepromData).getD []

/-- `analyzeCorruption`: over the fixed 32 sectors, add 1024 to
    `corruptedBytes` for a blank (all-0xFF or all-0x00) sector, otherwise
    count it recoverable; the reported level is
    `Math.round(100 - corruptedBytes / data.length * 100)` (every
    intermediate value is an exactly representable dyadic rational for the
    inputs of the theorems below, so modelling the floating-point expression
    in `ℚ` is faithful; a zero-length input would give `NaN`, a case no
    theorem touches).  The result is the pair
    (`corruptionLevel`, `recoverableSectors`). -/
def analyzeCorruption (data : List Nat) : ℤ × Nat :=
  let counts := (List.range 32).foldl (fun (acc : Nat × Nat) sector =>
    let sectorData := subarray data (sector * 1024) (sector * 1024 + 1024)
    let allFF := sectorData.all (fun byte => byte == 255)
    let all00 := sectorData.all (fun byte => byte == 0)
    if allFF || all00 then (acc.1 + 1024, acc.2) else (acc.1, acc.2 + 1)) (0, 0)
  let corruptionLevel : ℚ := (counts.1 : ℚ) / (data.length : ℚ) * 100
  (⌊(100 - corruptionLevel) + 1 / 2⌋, counts.2)

/-- The analysis report assembled by `analyzeDFlash`. -/
structure VehicleBundle where
  vin : Option (List Nat)
  model : Option String
  year : Option Nat
  mileage : Option Nat
  frmType : String
deriving DecidableEq

/-- `extractVehicleData` (the `frmType` parameter of the source is unused)
    merged with the `frmType` spread of `analyzeDFlash`; the
    `extractMileage` field evaluation can throw, which propagates. -/
def extractVehicleData (data : List Nat) (frmType : String) :
    Except String VehicleBundle :=
  match extractMileage data with
  | Except.error e => Except.error e
  | Except.ok mil => Except.ok
    { vin := extractVin data,
      model := extractModel data,
      year := extractYear data,
      mileage := mil,
      frmType := frmType }

/-- The full report of `analyzeDFlash`. -/
structure AnalysisReport where
  corruptionLevel : ℤ
  recoverableSectors : Nat
  totalSectors : Nat
  vehicleData : VehicleBundle
  configurationData : ConfigFlags
deriving DecidableEq

/-- `analyzeDFlash`: `totalSectors` is the constant 32; the `catch` of the
    source rethrows any error (the `ERR_OUT_OF_RANGE` of the mileage scan)
    as "Failed to analyze D-Flash data". -/
def analyzeDFlash (data : List Nat) : Except String AnalysisReport :=
  let frmType := detectFrmType data
  match extractVehicleData data frmType with
  | Except.error _ => Except.error "Failed to analyze D-Flash data"
  | Except.ok vehicleData =>
    let corruptionAnalysis := analyzeCorruption data
    Except.ok
      { corruptionLevel := corruptionAnalysis.1,
        recoverableSectors := corruptionAnalysis.2,
        totalSectors := 32,
        vehicleData := vehicleData,
        configurationData := extractConfigurationData data }

end Server

-- ----------------------------------------------------------------------
-- Generic helper lemmas for symbolic evaluation of buffer operations
-- ----------------------------------------------------------------------

theorem getD_mem_of_lt (l : List Nat) (i : Nat) (h : i < l.length) :
    l.getD i 0 ∈ l := by
  rw [List.getD_eq_getElem l 0 h]
  exact List.getElem_mem h

theorem ext_getD (l1 l2 : List Nat) (h1 : l1.length = l2.length)
    (h2 : ∀ i, i < l1.length → l1.getD i 0 = l2.getD i 0) : l1 = l2 := by
  refine List.ext_getElem h1 (fun i ha hb => ?_)
  rw [← List.getD_eq_getElem l1 0 ha, ← List.getD_eq_getElem l2 0 hb]
  exact h2 i ha

theorem getD_splice (n a off i : Nat) (data : List Nat)
    (h : off + data.length ≤ n) :
    (writeBytes (List.replicate n a) off data).getD i 0 =
      if off ≤ i ∧ i < off + data.length then data.getD (i - off) 0
      else if i < n then a else 0 := by
  rw [getD_writeBytes _ _ _ _ (by simpa using h)]
  by_cases hin : off ≤ i ∧ i < off + data.length
  · simp [hin]
  · rw [if_neg hin, if_neg hin]
    by_cases hi : i < n
    · rw [getD_replicate_lt _ _ _ hi, if_pos hi]
    · rw [if_neg hi, List.getD_eq_getElem?_getD, List.getElem?_replicate,
        if_neg hi]
      rfl

theorem length_splice (n a off : Nat) (data : List Nat)
    (h : off + data.length ≤ n) :
    (writeBytes (List.replicate n a) off data).length = n := by
  rw [length_writeBytes _ _ _ (by simpa using h)]
  simp

theorem subarray_replicate (n a s t : Nat) :
    subarray (List.replicate n a) s t = List.replicate (min (t - s) (n - s)) a := by
  simp [subarray, List.drop_replicate, List.take_replicate]

/-- An out-of-alphabet byte at any position kills the VIN test. -/
theorem isValidVin_false_of_getD (s : List Nat) (k : Nat) (hk : k < s.length)
    (hbad : isVinChar (s.getD k 0) = false) : isValidVin s = false := by
  have hmem := getD_mem_of_lt s k hk
  unfold isValidVin
  rw [Bool.and_eq_false_iff]
  right
  rw [List.all_eq_false]
  exact ⟨s.getD k 0, hmem, by rw [hbad]; simp⟩

theorem isValidVin_length (s : List Nat) (h : isValidVin s = true) :
    s.length = 17 := by
  unfold isValidVin at h
  rw [Bool.and_eq_true] at h
  have h1 := h.1
  simp only [beq_iff_eq] at h1
  exact h1

theorem isVinChar_255 : isVinChar 255 = false := by decide

theorem isVinChar_127 : isVinChar 127 = false := by decide

theorem isVinChar_0 : isVinChar 0 = false := by decide

/-- A uniform 17-byte slice of a blank (0xFF or 0x00) area never matches. -/
theorem isValidVin_replicate (m a : Nat) (ha : isVinChar a = false) (hm : 0 < m) :
    isValidVin (List.replicate m a) = false := by
  apply isValidVin_false_of_getD _ 0 (by simpa using hm)
  rwa [getD_replicate_lt _ _ _ hm]

/-- Bytes of an in-range `getD` on a byte-bounded buffer are bytes. -/
theorem getD_lt_256 (l : List Nat) (i : Nat) (hb : ∀ x ∈ l, x < 256) :
    l.getD i 0 < 256 := by
  by_cases h : i < l.length
  · exact hb _ (getD_mem_of_lt l i h)
  · rw [List.getD_eq_getElem?_getD, List.getElem?_eq_none (by omega)]
    decide

/-- All bytes of a spliced buffer are bytes when the fill and the written
    data are. -/
theorem splice_bytes_lt (n a off : Nat) (data : List Nat) (ha : a < 256)
    (hdata : ∀ x ∈ data, x < 256) :
    ∀ x ∈ writeBytes (List.replicate n a) off data, x < 256 := by
  intro x hx
  unfold writeBytes at hx
  simp only [List.mem_append] at hx
  rcases hx with (hx | hx) | hx
  · have := List.mem_of_mem_take hx
    rw [List.eq_of_mem_replicate this]
    exact ha
  · exact hdata x hx
  · have := List.mem_of_mem_drop hx
    rw [List.eq_of_mem_replicate this]
    exact ha

-- ----------------------------------------------------------------------
-- Pipeline lemmas for the `FrmConverter` conversion
-- ----------------------------------------------------------------------

namespace FrmConverter

/-- Every VIN returned by `extractVIN` passed the syntactic test. -/
theorem extractVIN_valid (d v : List Nat) (h : extractVIN d = some v) :
    isValidVin v = true := by
  obtain ⟨i, hi, hf, hprev⟩ := findSome?_first _ _ _ h
  simp only at hf
  by_cases hv : isValidVin (subarray d (VIN_PATTERNS.getD i 0) (VIN_PATTERNS.getD i 0 + 17)) = true
  · rw [if_pos hv] at hf
    cases hf
    exact hv
  · rw [if_neg hv] at hf
    cases hf

theorem extractVIN_length (d v : List Nat) (h : extractVIN d = some v) :
    v.length = 17 :=
  isValidVin_length v (extractVIN_valid d v h)

/-- Every mileage returned by `extractMileage` is strictly between 0 and
    1,000,000. -/
theorem extractMileage_range (d : List Nat) (m : Nat) (h : extractMileage d = some m) :
    0 < m ∧ m < 1000000 := by
  obtain ⟨i, hi, hf, hprev⟩ := findSome?_first _ _ _ h
  simp only at hf
  set off := MILEAGE_OFFSETS.getD i 0 with hoff
  by_cases hb : off + 4 ≤ d.length
  · rw [if_pos hb] at hf
    by_cases hle : 0 < getUint32LE d off ∧ getUint32LE d off < 1000000
    · rw [if_pos hle] at hf
      cases hf
      exact hle
    · rw [if_neg hle] at hf
      by_cases hbe : 0 < getUint32BE d off ∧ getUint32BE d off < 1000000
      · rw [if_pos hbe] at hf
        cases hf
        exact hbe
      · rw [if_neg hbe] at hf
        cases hf
  · rw [if_neg hb] at hf
    cases hf

/-- On a 32768-byte input the conversion succeeds and produces
    `convertOutput`. -/
theorem convert_success (d : List Nat) (h : d.length = 32768) :
    convertDFlashToEEPROM d =
      { success := true, eepromData := some (convertOutput d), error := none,
        vehicleData := some (extractVehicleData d) } := by
  unfold convertOutput convertDFlashToEEPROM DFLASH_SIZE
  rw [if_neg (by omega)]
  rfl

/-- The physical build chain of the output image. -/
theorem convertOutput_eq (d : List Nat) (h : d.length = 32768) :
    convertOutput d =
      calculateChecksums (writeConfigurationData
        (writeVehicleData (writeEEPROMHeader (List.replicate EEPROM_SIZE 0xFF))
          (extractVehicleData d)) d) := by
  unfold convertOutput convertDFlashToEEPROM DFLASH_SIZE
  rw [if_neg (by omega)]
  rfl

theorem length_writeEEPROMHeader (e : List Nat) (h : 16 ≤ e.length) :
    (writeEEPROMHeader e).length = e.length := by
  unfold writeEEPROMHeader
  rw [length_writeBytes _ _ _ (by simp [headerBytes]; omega)]

theorem getD_writeEEPROMHeader (e : List Nat) (i : Nat) (h : 16 ≤ e.length) :
    (writeEEPROMHeader e).getD i 0 =
      if i < 16 then headerBytes.getD i 0 else e.getD i 0 := by
  unfold writeEEPROMHeader
  rw [getD_writeBytes _ _ _ _ (by simp [headerBytes]; omega)]
  by_cases hi : i < 16
  · rw [if_pos (by simp [headerBytes]; omega), if_pos hi]
    simp
  · rw [if_neg (by simp [headerBytes]; omega), if_neg hi]

theorem length_writeVehicleData (e : List Nat) (vd : VehicleData)
    (hlen : e.length = 4096)
    (hvin : ∀ v, vd.vin = some v → v.length = 17) :
    (writeVehicleData e vd).length = e.length := by
  unfold writeVehicleData
  cases hv : vd.vin with
  | none =>
    cases hm : vd.mileage with
    | none => rfl
    | some m =>
      dsimp only
      by_cases hm0 : m = 0
      · rw [if_pos hm0]
      · rw [if_neg hm0, length_setUint32LE _ _ _ (by omega)]
  | some v =>
    have hv17 := hvin v hv
    dsimp only
    rw [if_neg (by omega : ¬ v.length = 0)]
    have h1 : (writeBytes e 16 v).length = e.length :=
      length_writeBytes _ _ _ (by omega)
    cases hm : vd.mileage with
    | none => exact h1
    | some m =>
      dsimp only
      by_cases hm0 : m = 0
      · rw [if_pos hm0]
        exact h1
      · rw [if_neg hm0, length_setUint32LE _ _ _ (by omega), h1]

/-- `writeVehicleData` only touches `[0x10, 0x21)` (VIN) and
    `[0x30, 0x34)` (mileage). -/
theorem getD_writeVehicleData_outside (e : List Nat) (vd : VehicleData) (i : Nat)
    (hlen : e.length = 4096)
    (hvin : ∀ v, vd.vin = some v → v.length = 17)
    (hi : ¬ (16 ≤ i ∧ i < 33) ∧ ¬ (48 ≤ i ∧ i < 52)) :
    (writeVehicleData e vd).getD i 0 = e.getD i 0 := by
  obtain ⟨hi1, hi2⟩ := hi
  unfold writeVehicleData
  cases hv : vd.vin with
  | none =>
    cases hm : vd.mileage with
    | none => rfl
    | some m =>
      dsimp only
      by_cases hm0 : m = 0
      · rw [if_pos hm0]
      · rw [if_neg hm0, getD_setUint32LE _ _ _ _ (by omega), if_neg (by omega)]
  | some v =>
    have hv17 := hvin v hv
    dsimp only
    rw [if_neg (by omega : ¬ v.length = 0)]
    have h1 : (writeBytes e 16 v).getD i 0 = e.getD i 0 := by
      rw [getD_writeBytes _ _ _ _ (by omega), if_neg (by omega)]
    have h1len : (writeBytes e 16 v).length = e.length :=
      length_writeBytes _ _ _ (by omega)
    cases hm : vd.mileage with
    | none => exact h1
    | some m =>
      dsimp only
      by_cases hm0 : m = 0
      · rw [if_pos hm0]
        exact h1
      · rw [if_neg hm0, getD_setUint32LE _ _ _ _ (by omega), if_neg (by omega), h1]

/-- With no VIN found, only the mileage field can be touched. -/
theorem getD_writeVehicleData_vin_none (e : List Nat) (vd : VehicleData) (i : Nat)
    (hlen : e.length = 4096) (hv : vd.vin = none)
    (hi : ¬ (48 ≤ i ∧ i < 52)) :
    (writeVehicleData e vd).getD i 0 = e.getD i 0 := by
  unfold writeVehicleData
  rw [hv]
  cases hm : vd.mileage with
  | none => rfl
  | some m =>
    dsimp only
    by_cases hm0 : m = 0
    · rw [if_pos hm0]
    · rw [if_neg hm0, getD_setUint32LE _ _ _ _ (by omega), if_neg (by omega)]

/-- With no mileage found, only the VIN field can be touched. -/
theorem getD_writeVehicleData_mileage_none (e : List Nat) (vd : VehicleData) (i : Nat)
    (hlen : e.length = 4096)
    (hvin : ∀ v, vd.vin = some v → v.length = 17)
    (hm : vd.mileage = none)
    (hi : ¬ (16 ≤ i ∧ i < 33)) :
    (writeVehicleData e vd).getD i 0 = e.getD i 0 := by
  unfold writeVehicleData
  rw [hm]
  cases hv : vd.vin with
  | none => rfl
  | some v =>
    have hv17 := hvin v hv
    dsimp only
    rw [if_neg (by omega : ¬ v.length = 0), getD_writeBytes _ _ _ _ (by omega),
      if_neg (by omega)]

/-- A found (hence non-zero) mileage is stored little-endian at
    `[0x30, 0x34)`. -/
theorem getD_writeVehicleData_mileage_some (e : List Nat) (vd : VehicleData) (i m : Nat)
    (hlen : e.length = 4096)
    (hvin : ∀ v, vd.vin = some v → v.length = 17)
    (hm : vd.mileage = some m) (hm0 : m ≠ 0)
    (hi : 48 ≤ i ∧ i < 52) :
    (writeVehicleData e vd).getD i 0 = (leBytes m).getD (i - 48) 0 := by
  unfold writeVehicleData
  rw [hm]
  cases hv : vd.vin with
  | none =>
    dsimp only
    rw [if_neg hm0, getD_setUint32LE _ _ _ _ (by omega), if_pos (by omega)]
  | some v =>
    have hv17 := hvin v hv
    have h1len : (writeBytes e 16 v).length = e.length :=
      length_writeBytes _ _ _ (by omega)
    dsimp only
    rw [if_neg (by omega : ¬ v.length = 0), if_neg hm0,
      getD_setUint32LE _ _ _ _ (by omega), if_pos (by omega)]

/-- A found VIN is stored as its ASCII bytes at `[0x10, 0x21)`. -/
theorem getD_writeVehicleData_vin_some (e : List Nat) (vd : VehicleData) (i : Nat)
    (v : List Nat) (hlen : e.length = 4096)
    (hv : vd.vin = some v) (hv17 : v.length = 17)
    (hi : 16 ≤ i ∧ i < 33) :
    (writeVehicleData e vd).getD i 0 = v.getD (i - 16) 0 := by
  unfold writeVehicleData
  rw [hv]
  dsimp only
  have h1 : (writeBytes e 16 v).getD i 0 = v.getD (i - 16) 0 := by
    rw [getD_writeBytes _ _ _ _ (by omega), if_pos (by omega)]
  have h1len : (writeBytes e 16 v).length = e.length :=
    length_writeBytes _ _ _ (by omega)
  rw [if_neg (by omega : ¬ v.length = 0)]
  cases hm : vd.mileage with
  | none => exact h1
  | some m =>
    dsimp only
    by_cases hm0 : m = 0
    · rw [if_pos hm0]
      exact h1
    · rw [if_neg hm0, getD_setUint32LE _ _ _ _ (by omega), if_neg (by omega), h1]

theorem length_writeConfigurationData (e d : List Nat) (hlen : e.length = 4096) :
    (writeConfigurationData e d).length = e.length := by
  unfold writeConfigurationData
  rw [length_writeBytes _ _ _ (by simp; omega)]

theorem getD_writeConfigurationData_outside (e d : List Nat) (i : Nat)
    (hlen : e.length = 4096) (hi : ¬ (256 ≤ i ∧ i < 260)) :
    (writeConfigurationData e d).getD i 0 = e.getD i 0 := by
  unfold writeConfigurationData
  rw [getD_writeBytes _ _ _ _ (by simp; omega), if_neg (by simp; omega)]

theorem length_calculateChecksums (e : List Nat) (hlen : e.length = 4096) :
    (calculateChecksums e).length = e.length := by
  unfold calculateChecksums EEPROM_SIZE
  rw [length_setUint32LE _ _ _ (by omega)]

theorem getD_calculateChecksums_lt (e : List Nat) (i : Nat)
    (hlen : e.length = 4096) (hi : i < 4092) :
    (calculateChecksums e).getD i 0 = e.getD i 0 := by
  unfold calculateChecksums EEPROM_SIZE
  rw [getD_setUint32LE _ _ _ _ (by omega), if_neg (by omega)]

end FrmConverter

-- ----------------------------------------------------------------------
-- Checksum machinery shared by both implementations
-- ----------------------------------------------------------------------

/-- The additive recomputation of the spec: sum of the bytes at offsets
    `[0, n)`. -/
def sumRange (e : List Nat) (n : Nat) : Nat :=
  (List.range n).foldl (fun c i => c + e.getD i 0) 0

theorem sumRange_congr (e1 e2 : List Nat) (n : Nat)
    (h : ∀ i, i < n → e1.getD i 0 = e2.getD i 0) :
    sumRange e1 n = sumRange e2 n := by
  unfold sumRange
  refine List.foldl_ext _ _ 0 (fun c i hmem => ?_)
  rw [h i (List.mem_range.mp hmem)]

theorem sumRange_eq_map_sum (e : List Nat) (n : Nat) :
    sumRange e n = ((List.range n).map (fun i => e.getD i 0)).sum := by
  rw [List.sum_eq_foldl, List.foldl_map]
  rfl

/-- The masked fold of `FrmConverter.calculateChecksums` equals the plain sum
    reduced once. -/
theorem masked_fold_eq (e : List Nat) (n M : Nat) :
    (List.range n).foldl (fun c i => (c + e.getD i 0) % M) 0 =
      sumRange e n % M := by
  have h0 : (0 : Nat) = 0 % M := (Nat.zero_mod M).symm
  calc (List.range n).foldl (fun c i => (c + e.getD i 0) % M) 0
      = ((List.range n).map (fun i => e.getD i 0)).foldl (fun c b => (c + b) % M) 0 := by
        rw [List.foldl_map]
    _ = ((List.range n).map (fun i => e.getD i 0)).foldl (fun c b => (c + b) % M) (0 % M) := by
        rw [← h0]
    _ = (0 + ((List.range n).map (fun i => e.getD i 0)).sum) % M := foldl_add_mod ..
    _ = sumRange e n % M := by rw [Nat.zero_add, ← sumRange_eq_map_sum]

/-- Reading the checksum field back from a `FrmConverter.calculateChecksums`
    result gives the additive sum of the first 4092 bytes mod 2^32. -/
theorem frm_checksum_readback (e : List Nat) (hlen : e.length = 4096) :
    getUint32LE (FrmConverter.calculateChecksums e) 4092 =
      sumRange e 4092 % 4294967296 := by
  unfold FrmConverter.calculateChecksums FrmConverter.EEPROM_SIZE
  dsimp only
  rw [masked_fold_eq]
  unfold getUint32LE
  rw [getD_setUint32LE _ _ _ _ (by omega), getD_setUint32LE _ _ _ _ (by omega),
    getD_setUint32LE _ _ _ _ (by omega), getD_setUint32LE _ _ _ _ (by omega),
    if_pos (by omega), if_pos (by omega), if_pos (by omega), if_pos (by omega)]
  have harith : (4096 - 4 : Nat) = 4092 := by omega
  rw [harith]
  have h0 : (4092 - 4092 : Nat) = 0 := by omega
  have h1 : (4093 - 4092 : Nat) = 1 := by omega
  have h2 : (4094 - 4092 : Nat) = 2 := by omega
  have h3 : (4095 - 4092 : Nat) = 3 := by omega
  rw [show (4092 + 1 : Nat) = 4093 by omega, show (4092 + 2 : Nat) = 4094 by omega,
    show (4092 + 3 : Nat) = 4095 by omega, h0, h1, h2, h3, leBytes_decode,
    Nat.mod_mod_of_dvd _ dvd_rfl]

/-- The same for the server's `calculateEepromChecksums`. -/
theorem server_checksum_readback (e : List Nat) (hlen : e.length = 4096) :
    getUint32LE (Server.calculateEepromChecksums e) 4092 =
      sumRange e 4092 % 4294967296 := by
  unfold Server.calculateEepromChecksums
  dsimp only
  rw [hlen]
  have harith : (4096 - 4 : Nat) = 4092 := by omega
  rw [harith]
  unfold getUint32LE
  rw [getD_setUint32LE _ _ _ _ (by omega), getD_setUint32LE _ _ _ _ (by omega),
    getD_setUint32LE _ _ _ _ (by omega), getD_setUint32LE _ _ _ _ (by omega),
    if_pos (by omega), if_pos (by omega), if_pos (by omega), if_pos (by omega)]
  rw [show (4092 + 1 : Nat) = 4093 by omega, show (4092 + 2 : Nat) = 4094 by omega,
    show (4092 + 3 : Nat) = 4095 by omega,
    show (4092 - 4092 : Nat) = 0 by omega, show (4093 - 4092 : Nat) = 1 by omega,
    show (4094 - 4092 : Nat) = 2 by omega, show (4095 - 4092 : Nat) = 3 by omega,
    leBytes_decode, Nat.mod_mod_of_dvd _ dvd_rfl]
  rfl

-- ----------------------------------------------------------------------
-- Pipeline lemmas for the server conversion
-- ----------------------------------------------------------------------

namespace Server

theorem extractVin_valid (d v : List Nat) (h : extractVin d = some v) :
    isValidVin v = true := by
  obtain ⟨i, hi, hf, hprev⟩ := findSome?_first _ _ _ h
  simp only at hf
  set off := (List.range' 4096 256 16).getD i 0 with hoff
  by_cases hv : isValidVin (asciiMask (subarray d off (off + 17))) = true
  · rw [if_pos hv] at hf
    cases hf
    exact hv
  · rw [if_neg hv] at hf
    cases hf

theorem extractVin_length (d v : List Nat) (h : extractVin d = some v) :
    v.length = 17 :=
  isValidVin_length v (extractVin_valid d v h)

/-- A value returned by the mileage loop was accepted by the plausibility
    test. -/
theorem mileageScan_bounds (d : List Nat) : ∀ (offs : List Nat) (m : Nat),
    mileageScan d offs = Except.ok (some m) → 0 < m ∧ m < 1000000 := by
  intro offs
  induction offs with
  | nil => intro m h; cases h
  | cons a t ih =>
    intro m h
    unfold mileageScan readUInt32LE at h
    by_cases hb : a + 4 ≤ d.length
    · rw [if_pos hb] at h
      dsimp only at h
      by_cases hv : 0 < getUint32LE d a ∧ getUint32LE d a < 1000000
      · rw [if_pos hv] at h
        cases h
        exact hv
      · rw [if_neg hv] at h
        exact ih m h
    · rw [if_neg hb] at h
      cases h

theorem extractMileage_bounds (d : List Nat) (m : Nat)
    (h : extractMileage d = Except.ok (some m)) : 0 < m ∧ m < 1000000 :=
  mileageScan_bounds d _ m h

/-- With every read in bounds, the mileage loop cannot throw. -/
theorem mileageScan_ok_of_inbounds (d : List Nat) : ∀ offs : List Nat,
    (∀ off ∈ offs, off + 4 ≤ d.length) →
    ∃ mil, mileageScan d offs = Except.ok mil := by
  intro offs
  induction offs with
  | nil => intro h; exact ⟨none, rfl⟩
  | cons a t ih =>
    intro h
    unfold mileageScan readUInt32LE
    rw [if_pos (h a (List.mem_cons_self a t))]
    dsimp only
    by_cases hv : 0 < getUint32LE d a ∧ getUint32LE d a < 1000000
    · exact ⟨some (getUint32LE d a), by rw [if_pos hv]⟩
    · rw [if_neg hv]
      exact ih (fun off hoff => h off (List.mem_cons_of_mem _ hoff))

/-- A 12288-byte-or-longer input keeps every mileage read in bounds, so the
    scan never throws. -/
theorem extractMileage_ok (d : List Nat) (h : 12288 ≤ d.length) :
    ∃ mil, extractMileage d = Except.ok mil := by
  apply mileageScan_ok_of_inbounds
  intro off hoff
  rw [List.mem_range'] at hoff
  obtain ⟨i, hi, hoffeq⟩ := hoff
  omega

/-- With every in-bounds read implausible and every read in bounds, the
    loop completes and returns `null`. -/
theorem mileageScan_ok_none (d : List Nat) : ∀ offs : List Nat,
    (∀ off ∈ offs, off + 4 ≤ d.length ∧
      ¬ (0 < getUint32LE d off ∧ getUint32LE d off < 1000000)) →
    mileageScan d offs = Except.ok none := by
  intro offs
  induction offs with
  | nil => intro h; rfl
  | cons a t ih =>
    intro h
    unfold mileageScan readUInt32LE
    rw [if_pos (h a (List.mem_cons_self a t)).1]
    dsimp only
    rw [if_neg (h a (List.mem_cons_self a t)).2]
    exact ih (fun off hoff => h off (List.mem_cons_of_mem _ hoff))

/-- First-match characterisation of a successful mileage scan: there is a
    first accepted offset, every earlier read was in bounds and
    implausible. -/
theorem mileageScan_spec (d : List Nat) : ∀ (offs : List Nat) (m : Nat),
    mileageScan d offs = Except.ok (some m) →
    ∃ i, i < offs.length ∧ offs.getD i 0 + 4 ≤ d.length ∧
      m = getUint32LE d (offs.getD i 0) ∧
      ∀ j, j < i → offs.getD j 0 + 4 ≤ d.length ∧
        ¬ (0 < getUint32LE d (offs.getD j 0) ∧
           getUint32LE d (offs.getD j 0) < 1000000) := by
  intro offs
  induction offs with
  | nil => intro m h; cases h
  | cons a t ih =>
    intro m h
    unfold mileageScan readUInt32LE at h
    by_cases hb : a + 4 ≤ d.length
    · rw [if_pos hb] at h
      dsimp only at h
      by_cases hv : 0 < getUint32LE d a ∧ getUint32LE d a < 1000000
      · rw [if_pos hv] at h
        cases h
        exact ⟨0, by simp, hb, rfl, fun j hj => absurd hj (by omega)⟩
      · rw [if_neg hv] at h
        obtain ⟨i, hi, hin, hm, hprev⟩ := ih m h
        refine ⟨i + 1, by simpa using Nat.succ_lt_succ hi,
          by rwa [List.getD_cons_succ], by rwa [List.getD_cons_succ],
          fun j hj => ?_⟩
        cases j with
        | zero => exact ⟨hb, hv⟩
        | succ j0 =>
          rw [List.getD_cons_succ]
          exact hprev j0 (by omega)
    · rw [if_neg hb] at h
      cases h

/-- The conversion reports success with the produced image whenever the
    mileage scan does not throw. -/
theorem convert_eq (d : List Nat) (mil : Option Nat)
    (hm : extractMileage d = Except.ok mil) :
    convertDFlashToEEPROM d =
      { success := true, eepromData := some (convertOutput d), error := none } := by
  unfold convertOutput convertDFlashToEEPROM
  rw [hm]
  rfl

/-- A throwing mileage scan makes the conversion fail with no artifact. -/
theorem convert_error (d : List Nat) (e : String)
    (hm : extractMileage d = Except.error e) :
    convertDFlashToEEPROM d =
      { success := false, eepromData := none, error := some e } := by
  unfold convertDFlashToEEPROM
  rw [hm]

theorem length_calcEeprom (e : List Nat) (h : 4 ≤ e.length) :
    (calculateEepromChecksums e).length = e.length := by
  unfold calculateEepromChecksums
  dsimp only
  rw [length_setUint32LE _ _ _ (by omega)]

theorem getD_calcEeprom_lt (e : List Nat) (i : Nat) (hlen : e.length = 4096)
    (hi : i < 4092) :
    (calculateEepromChecksums e).getD i 0 = e.getD i 0 := by
  unfold calculateEepromChecksums
  dsimp only
  rw [hlen, getD_setUint32LE _ _ _ _ (by omega), if_neg (by omega)]

/-- The config slice written at 256 is at most 1024 bytes by construction. -/
theorem configSlice_length_le (x : List Nat) :
    (x.take (min x.length 1024)).length ≤ 1024 := by
  rw [List.length_take]
  omega

/-- The server's output image is exactly 4096 bytes whenever the
    conversion succeeds. -/
theorem length_convertOutput (d : List Nat) (mil : Option Nat)
    (hm : extractMileage d = Except.ok mil) :
    (convertOutput d).length = 4096 := by
  unfold convertOutput convertDFlashToEEPROM
  rw [hm]
  dsimp only
  rw [Option.getD_some]
  have hcfg := configSlice_length_le (asciiBytes (configJson (extractConfigurationFromDFlash d)))
  have hrep : (List.replicate 4096 0 : List Nat).length = 4096 := List.length_replicate ..
  cases hv : extractVin d with
  | none =>
    cases mil with
    | none =>
      dsimp only
      have l3 : (writeBytes (List.replicate 4096 0) 256
          ((asciiBytes (configJson (extractConfigurationFromDFlash d))).take
            (min (asciiBytes (configJson (extractConfigurationFromDFlash d))).length 1024))).length = 4096 := by
        rw [length_writeBytes _ _ _ (by omega), hrep]
      rw [length_calcEeprom _ (by omega), l3]
    | some m =>
      dsimp only
      have l2 : (setUint32LE (List.replicate 4096 0) 48 m).length = 4096 := by
        rw [length_setUint32LE _ _ _ (by omega), hrep]
      have l3 : (writeBytes (setUint32LE (List.replicate 4096 0) 48 m) 256
          ((asciiBytes (configJson (extractConfigurationFromDFlash d))).take
            (min (asciiBytes (configJson (extractConfigurationFromDFlash d))).length 1024))).length = 4096 := by
        rw [length_writeBytes _ _ _ (by omega), l2]
      rw [length_calcEeprom _ (by omega), l3]
  | some v =>
    have hv17 := extractVin_length d v hv
    dsimp only
    rw [if_neg (by omega : ¬ v.length = 0)]
    have l1 : (writeBytes (List.replicate 4096 0) 16 v).length = 4096 := by
      rw [length_writeBytes _ _ _ (by omega), hrep]
    cases mil with
    | none =>
      dsimp only
      have l3 : (writeBytes (writeBytes (List.replicate 4096 0) 16 v) 256
          ((asciiBytes (configJson (extractConfigurationFromDFlash d))).take
            (min (asciiBytes (configJson (extractConfigurationFromDFlash d))).length 1024))).length = 4096 := by
        rw [length_writeBytes _ _ _ (by omega), l1]
      rw [length_calcEeprom _ (by omega), l3]
    | some m =>
      dsimp only
      have l2 : (setUint32LE (writeBytes (List.replicate 4096 0) 16 v) 48 m).length = 4096 := by
        rw [length_setUint32LE _ _ _ (by omega), l1]
      have l3 : (writeBytes (setUint32LE (writeBytes (List.replicate 4096 0) 16 v) 48 m) 256
          ((asciiBytes (configJson (extractConfigurationFromDFlash d))).take
            (min (asciiBytes (configJson (extractConfigurationFromDFlash d))).length 1024))).length = 4096 := by
        rw [length_writeBytes _ _ _ (by omega), l2]
      rw [length_calcEeprom _ (by omega), l3]

/-- With neither VIN nor mileage found, every output byte below offset 256 is
    the 0x00 fill byte of `Buffer.alloc`. -/
theorem convertOutput_getD_small (d : List Nat) (i : Nat)
    (hv : extractVin d = none) (hm : extractMileage d = Except.ok none)
    (hi : i < 256) :
    (convertOutput d).getD i 0 = 0 := by
  unfold convertOutput convertDFlashToEEPROM
  rw [hm, hv]
  dsimp only
  rw [Option.getD_some]
  have hcfg := configSlice_length_le (asciiBytes (configJson (extractConfigurationFromDFlash d)))
  have hrep : (List.replicate 4096 0 : List Nat).length = 4096 := List.length_replicate ..
  have l3 : (writeBytes (List.replicate 4096 0) 256
      ((asciiBytes (configJson (extractConfigurationFromDFlash d))).take
        (min (asciiBytes (configJson (extractConfigurationFromDFlash d))).length 1024))).length = 4096 := by
    rw [length_writeBytes _ _ _ (by omega), hrep]
  rw [getD_calcEeprom_lt _ _ l3 (by omega),
    getD_writeBytes _ _ _ _ (by omega), if_neg (by omega),
    getD_replicate_lt _ _ _ (by omega)]

end Server

-- ----------------------------------------------------------------------
-- Composite facts about the FrmConverter output image
-- ----------------------------------------------------------------------

namespace FrmConverter

theorem vehicleData_vin (d : List Nat) : (extractVehicleData d).vin = extractVIN d := rfl

theorem vehicleData_mileage (d : List Nat) :
    (extractVehicleData d).mileage = extractMileage d := rfl

theorem frm_vinlen (d : List Nat) :
    ∀ v, (extractVehicleData d).vin = some v → v.length = 17 := by
  intro v hv
  rw [vehicleData_vin] at hv
  exact extractVIN_length d v hv

theorem frm_l0 : (List.replicate 4096 (255 : Nat)).length = 4096 :=
  List.length_replicate ..

theorem frm_l1 :
    (writeEEPROMHeader (List.replicate 4096 255)).length = 4096 := by
  rw [length_writeEEPROMHeader _ (by rw [frm_l0]; omega), frm_l0]

theorem frm_l2 (d : List Nat) :
    (writeVehicleData (writeEEPROMHeader (List.replicate 4096 255))
      (extractVehicleData d)).length = 4096 := by
  rw [length_writeVehicleData _ _ frm_l1 (frm_vinlen d), frm_l1]

theorem frm_l3 (d : List Nat) :
    (writeConfigurationData (writeVehicleData (writeEEPROMHeader
      (List.replicate 4096 255)) (extractVehicleData d)) d).length = 4096 := by
  rw [length_writeConfigurationData _ _ (frm_l2 d), frm_l2 d]

theorem frm_length_convertOutput (d : List Nat) (h : d.length = 32768) :
    (convertOutput d).length = 4096 := by
  rw [convertOutput_eq _ h]
  simp only [EEPROM_SIZE]
  rw [length_calculateChecksums _ (frm_l3 d), frm_l3 d]

/-- Reduce an output byte below the checksum and outside the configuration
    block to the vehicle-data stage. -/
theorem frm_out_to_e2 (d : List Nat) (i : Nat) (h : d.length = 32768)
    (hi1 : i < 4092) (hi2 : ¬ (256 ≤ i ∧ i < 260)) :
    (convertOutput d).getD i 0 =
      (writeVehicleData (writeEEPROMHeader (List.replicate 4096 255))
        (extractVehicleData d)).getD i 0 := by
  rw [convertOutput_eq _ h]
  simp only [EEPROM_SIZE]
  rw [getD_calculateChecksums_lt _ _ (frm_l3 d) hi1,
    getD_writeConfigurationData_outside _ _ _ (frm_l2 d) hi2]

/-- Output bytes in no field region keep the 0xFF fill. -/
theorem frm_out_untouched (d : List Nat) (i : Nat) (h : d.length = 32768)
    (hi1 : 33 ≤ i) (hi2 : ¬ (48 ≤ i ∧ i < 52)) (hi3 : ¬ (256 ≤ i ∧ i < 260))
    (hi4 : i < 4092) :
    (convertOutput d).getD i 0 = 255 := by
  rw [frm_out_to_e2 d i h hi4 hi3,
    getD_writeVehicleData_outside _ _ _ frm_l1 (frm_vinlen d) ⟨by omega, hi2⟩,
    getD_writeEEPROMHeader _ _ (by rw [frm_l0]; omega), if_neg (by omega),
    getD_replicate_lt _ _ _ (by omega)]

/-- With no VIN found, the VIN field region keeps the 0xFF fill. -/
theorem frm_out_vin_none (d : List Nat) (i : Nat) (h : d.length = 32768)
    (hv : extractVIN d = none) (hi : 16 ≤ i ∧ i < 33) :
    (convertOutput d).getD i 0 = 255 := by
  rw [frm_out_to_e2 d i h (by omega) (by omega),
    getD_writeVehicleData_vin_none _ _ _ frm_l1 (by rw [vehicleData_vin, hv]) (by omega),
    getD_writeEEPROMHeader _ _ (by rw [frm_l0]; omega), if_neg (by omega),
    getD_replicate_lt _ _ _ (by omega)]

/-- With no mileage found, the odometer field region keeps the 0xFF fill. -/
theorem frm_out_mileage_none (d : List Nat) (i : Nat) (h : d.length = 32768)
    (hm : extractMileage d = none) (hi : 48 ≤ i ∧ i < 52) :
    (convertOutput d).getD i 0 = 255 := by
  rw [frm_out_to_e2 d i h (by omega) (by omega),
    getD_writeVehicleData_mileage_none _ _ _ frm_l1 (frm_vinlen d)
      (by rw [vehicleData_mileage, hm]) (by omega),
    getD_writeEEPROMHeader _ _ (by rw [frm_l0]; omega), if_neg (by omega),
    getD_replicate_lt _ _ _ (by omega)]

/-- The fixed header reaches the final output unchanged. -/
theorem frm_out_header (d : List Nat) (i : Nat) (h : d.length = 32768)
    (hi : i < 16) :
    (convertOutput d).getD i 0 = headerBytes.getD i 0 := by
  rw [frm_out_to_e2 d i h (by omega) (by omega),
    getD_writeVehicleData_outside _ _ _ frm_l1 (frm_vinlen d) ⟨by omega, by omega⟩,
    getD_writeEEPROMHeader _ _ (by rw [frm_l0]; omega), if_pos (by omega)]

/-- A found VIN reaches the output at `[0x10, 0x21)`. -/
theorem frm_out_vin_some (d v : List Nat) (i : Nat) (h : d.length = 32768)
    (hv : extractVIN d = some v) (hi : 16 ≤ i ∧ i < 33) :
    (convertOutput d).getD i 0 = v.getD (i - 16) 0 := by
  rw [frm_out_to_e2 d i h (by omega) (by omega),
    getD_writeVehicleData_vin_some _ _ _ v frm_l1 (by rw [vehicleData_vin, hv])
      (extractVIN_length d v hv) hi]

/-- A found mileage reaches the output little-endian at `[0x30, 0x34)`. -/
theorem frm_out_mileage_some (d : List Nat) (m i : Nat) (h : d.length = 32768)
    (hm : extractMileage d = some m) (hi : 48 ≤ i ∧ i < 52) :
    (convertOutput d).getD i 0 = (leBytes m).getD (i - 48) 0 := by
  have hm0 : m ≠ 0 := by
    have := extractMileage_range d m hm
    omega
  rw [frm_out_to_e2 d i h (by omega) (by omega),
    getD_writeVehicleData_mileage_some _ _ _ m frm_l1 (frm_vinlen d)
      (by rw [vehicleData_mileage, hm]) hm0 hi]

end FrmConverter

-- ----------------------------------------------------------------------
-- Extraction results on concrete classes of inputs
-- ----------------------------------------------------------------------

theorem range'_getD (step : Nat) :
    ∀ (n s i : Nat), i < n → (List.range' s n step).getD i 0 = s + step * i := by
  intro n
  induction n with
  | zero => intro s i h; omega
  | succ n0 ih =>
    intro s i h
    rw [List.range'_succ]
    cases i with
    | zero => simp
    | succ i0 =>
      have := ih (s + step) i0 (by omega)
      rw [List.getD_cons_succ, this]
      ring

theorem server_extractVin_none (d : List Nat)
    (h : ∀ off ∈ List.range' 4096 256 16,
      isValidVin (asciiMask (subarray d off (off + 17))) = false) :
    Server.extractVin d = none := by
  unfold Server.extractVin
  rw [findSome?_none]
  intro off hoff
  dsimp only
  rw [h off hoff]
  simp

theorem frm_extractVIN_none (d : List Nat)
    (h : ∀ off ∈ FrmConverter.VIN_PATTERNS, isValidVin (subarray d off (off + 17)) = false) :
    FrmConverter.extractVIN d = none := by
  unfold FrmConverter.extractVIN
  rw [findSome?_none]
  intro off hoff
  dsimp only
  rw [h off hoff]
  simp

theorem server_extractMileage_none (d : List Nat)
    (h : ∀ off ∈ List.range' 8192 1024 4, off + 4 ≤ d.length ∧
      ¬ (0 < getUint32LE d off ∧ getUint32LE d off < 1000000)) :
    Server.extractMileage d = Except.ok none :=
  Server.mileageScan_ok_none d _ h

theorem frm_extractMileage_none (d : List Nat)
    (h : ∀ off ∈ FrmConverter.MILEAGE_OFFSETS,
      ¬ (0 < getUint32LE d off ∧ getUint32LE d off < 1000000) ∧
      ¬ (0 < getUint32BE d off ∧ getUint32BE d off < 1000000)) :
    FrmConverter.extractMileage d = none := by
  unfold FrmConverter.extractMileage
  rw [findSome?_none]
  intro off hoff
  dsimp only
  by_cases hb : off + 4 ≤ d.length
  · rw [if_pos hb, if_neg (h off hoff).1, if_neg (h off hoff).2]
  · rw [if_neg hb]

theorem getUint32LE_replicate (n a off : Nat) (h : off + 3 < n) :
    getUint32LE (List.replicate n a) off = 16843009 * a := by
  unfold getUint32LE
  rw [getD_replicate_lt _ _ _ (by omega), getD_replicate_lt _ _ _ (by omega),
    getD_replicate_lt _ _ _ (by omega), getD_replicate_lt _ _ _ (by omega)]
  ring

theorem getUint32BE_replicate (n a off : Nat) (h : off + 3 < n) :
    getUint32BE (List.replicate n a) off = 16843009 * a := by
  unfold getUint32BE
  rw [getD_replicate_lt _ _ _ (by omega), getD_replicate_lt _ _ _ (by omega),
    getD_replicate_lt _ _ _ (by omega), getD_replicate_lt _ _ _ (by omega)]
  ring

/-- No VIN in an all-0xFF image (server scan): every masked byte is
    0x7F. -/
theorem server_extractVin_ff : Server.extractVin (List.replicate 32768 255) = none := by
  apply server_extractVin_none
  intro off hoff
  rw [List.mem_range'] at hoff
  obtain ⟨i, hi, hoffeq⟩ := hoff
  rw [subarray_replicate, asciiMask_replicate]
  exact isValidVin_replicate _ _ (by decide) (by omega)

/-- No VIN in an all-0xFF image (class scan). -/
theorem frm_extractVIN_ff : FrmConverter.extractVIN (List.replicate 32768 255) = none := by
  apply frm_extractVIN_none
  intro off hoff
  have hoff3 : off = 4096 ∨ off = 5376 ∨ off = 8192 := by
    simpa [FrmConverter.VIN_PATTERNS] using hoff
  rw [subarray_replicate]
  rcases hoff3 with h | h | h <;> subst h <;>
    exact isValidVin_replicate _ _ isVinChar_255 (by omega)

/-- No mileage in an all-0xFF image (server scan): every little-endian
    reading is 0xFFFFFFFF and every read is in bounds. -/
theorem server_extractMileage_ff :
    Server.extractMileage (List.replicate 32768 255) = Except.ok none := by
  apply server_extractMileage_none
  intro off hoff
  rw [List.mem_range'] at hoff
  obtain ⟨i, hi, hoffeq⟩ := hoff
  constructor
  · rw [List.length_replicate]
    omega
  · rw [getUint32LE_replicate _ _ _ (by omega)]
    omega

/-- All-zero reads on a 16384-byte input: every read is in bounds and
    implausible (0), so the scan completes with `null` — no size check, no
    throw. -/
theorem server_extractMileage_zeros16384 :
    Server.extractMileage (List.replicate 16384 0) = Except.ok none := by
  apply server_extractMileage_none
  intro off hoff
  rw [List.mem_range'] at hoff
  obtain ⟨i, hi, hoffeq⟩ := hoff
  constructor
  · rw [List.length_replicate]
    omega
  · rw [getUint32LE_replicate _ _ _ (by omega)]
    omega

/-- No mileage in an all-0xFF image (class scan). -/
theorem frm_extractMileage_ff :
    FrmConverter.extractMileage (List.replicate 32768 255) = none := by
  apply frm_extractMileage_none
  intro off hoff
  have hoff4 : off = 8448 ∨ off = 8704 ∨ off = 8960 ∨ off = 9216 := by
    simpa [FrmConverter.MILEAGE_OFFSETS] using hoff
  constructor
  · rcases hoff4 with h | h | h | h <;> subst h <;>
      rw [getUint32LE_replicate _ _ _ (by omega)] <;> omega
  · rcases hoff4 with h | h | h | h <;> subst h <;>
      rw [getUint32BE_replicate _ _ _ (by omega)] <;> omega

-- ----------------------------------------------------------------------
-- Concrete test images (spliced into a uniform 0xFF background)
-- ----------------------------------------------------------------------

/-- A valid identifier code whose prefix is unmapped in the server table. -/
def vinWBS : List Nat := asciiBytes "WBS12345678901234"

/-- The first marker token. -/
def xeq384 : List Nat := asciiBytes "XEQ384"

/-- Valid identifier with unmapped prefix at the first scanned offset. -/
def ceVinWBS : List Nat := writeBytes (List.replicate 32768 255) 4096 vinWBS

/-- Bytes 00 00 00 01 at the first class-scan mileage offset: little-endian
    16777216 (implausible), big-endian 1 (plausible). -/
def ceMileageBE : List Nat := writeBytes (List.replicate 32768 255) 8448 [0, 0, 0, 1]

/-- Little-endian 123456 at the first server-scan mileage offset. -/
def ceMileageLE : List Nat := writeBytes (List.replicate 32768 255) 8192 [64, 226, 1, 0]

/-- Marker token inside the second signature window only. -/
def ceMarkerWin2 : List Nat := writeBytes (List.replicate 32768 255) 512 xeq384

/-- Marker token at offset 0, outside both signature windows. -/
def ceMarkerAt0 : List Nat := writeBytes (List.replicate 32768 255) 0 xeq384

theorem vinWBS_length : vinWBS.length = 17 := by decide

theorem xeq384_length : xeq384.length = 6 := by decide

theorem vinWBS_valid : isValidVin vinWBS = true := by decide

/-- The spliced window itself reads back as the written data. -/
theorem subarray_splice_window (n a off : Nat) (data : List Nat)
    (h : off + data.length ≤ n) :
    subarray (writeBytes (List.replicate n a) off data) off (off + data.length) = data := by
  apply ext_getD
  · rw [length_subarray, length_splice _ _ _ _ h]
    omega
  · intro k hk
    rw [length_subarray, length_splice _ _ _ _ h] at hk
    have hk2 : k < data.length := by omega
    rw [getD_subarray _ _ _ _ (by omega), getD_splice _ _ _ _ _ h,
      if_pos (by omega), show off + k - off = k by omega]

/-- A slice disjoint from the spliced window is pure fill. -/
theorem subarray_splice_outside (n a off s t : Nat) (data : List Nat)
    (h : off + data.length ≤ n) (hdisj : t ≤ off ∨ off + data.length ≤ s)
    (ht : t ≤ n) :
    subarray (writeBytes (List.replicate n a) off data) s t =
      List.replicate (t - s) a := by
  apply ext_getD
  · rw [length_subarray, length_splice _ _ _ _ h, List.length_replicate]
    omega
  · intro k hk
    rw [length_subarray, length_splice _ _ _ _ h] at hk
    have hk2 : k < t - s := by omega
    rw [getD_subarray _ _ _ _ hk2, getD_splice _ _ _ _ _ h, if_neg (by omega),
      if_pos (by omega), getD_replicate_lt _ _ _ hk2]

/-- A 17-byte slice is rejected as soon as one of its bytes is outside the
    alphabet. -/
theorem slice_invalid_of_byte (d : List Nat) (off k : Nat) (hk : k < 17)
    (hlen : off + 17 ≤ d.length) (hbyte : isVinChar (d.getD (off + k) 0) = false) :
    isValidVin (subarray d off (off + 17)) = false := by
  apply isValidVin_false_of_getD _ k
  · rw [length_subarray]
    omega
  · rw [getD_subarray _ _ _ _ (by omega)]
    exact hbyte

theorem findSome?_cons_eq {β : Type} (f : Nat → Option β) (a : Nat) (t : List Nat) :
    (a :: t).findSome? f =
      match f a with | some v => some v | none => t.findSome? f := rfl

/-- A slice at the first scanned offset whose masked decoding is valid is
    returned immediately (server scan). -/
theorem server_extractVin_first (d v : List Nat)
    (hwin : asciiMask (subarray d 4096 (4096 + 17)) = v)
    (hv : isValidVin v = true) :
    Server.extractVin d = some v := by
  unfold Server.extractVin
  rw [show (256 : Nat) = 255 + 1 from rfl, List.range'_succ, findSome?_cons_eq]
  dsimp only
  rw [hwin, hv]
  rfl

/-- A valid slice at the first scanned offset is returned immediately
    (class scan). -/
theorem frm_extractVIN_first (d v : List Nat)
    (hwin : subarray d 4096 (4096 + 17) = v) (hv : isValidVin v = true) :
    FrmConverter.extractVIN d = some v := by
  unfold FrmConverter.extractVIN FrmConverter.VIN_PATTERNS
  rw [findSome?_cons_eq]
  dsimp only
  rw [hwin, hv]
  rfl

/-- At the first class-scan offset, an implausible little-endian value with
    a plausible big-endian value yields the big-endian reading. -/
theorem frm_extractMileage_first_BE (d : List Nat) (a b : Nat)
    (hlen : d.length = 32768)
    (h1 : getUint32LE d 8448 = a) (ha : ¬ (0 < a ∧ a < 1000000))
    (h2 : getUint32BE d 8448 = b) (hb : 0 < b ∧ b < 1000000) :
    FrmConverter.extractMileage d = some b := by
  unfold FrmConverter.extractMileage FrmConverter.MILEAGE_OFFSETS
  rw [findSome?_cons_eq]
  dsimp only
  rw [hlen, if_pos (by omega), h1, h2, if_neg ha, if_pos hb]

/-- A plausible little-endian value at the first server-scan offset is
    accepted (the first read must be in bounds). -/
theorem server_extractMileage_first (d : List Nat) (m : Nat)
    (hb : 8196 ≤ d.length) (h1 : getUint32LE d 8192 = m)
    (hm : 0 < m ∧ m < 1000000) :
    Server.extractMileage d = Except.ok (some m) := by
  unfold Server.extractMileage
  rw [show (1024 : Nat) = 1023 + 1 from rfl, List.range'_succ]
  unfold Server.mileageScan Server.readUInt32LE
  rw [if_pos (show 8192 + 4 ≤ d.length by omega)]
  dsimp only
  rw [h1, if_pos hm]

-- Facts about `ceVinWBS` ----------------------------------------------

theorem ceVinWBS_length : ceVinWBS.length = 32768 := by
  unfold ceVinWBS
  rw [length_splice _ _ _ _ (by rw [vinWBS_length]; omega)]

/-- The WBS identifier sits exactly at the first scanned offset of both
    implementations. -/
theorem ceVinWBS_window :
    subarray ceVinWBS 4096 (4096 + 17) = vinWBS := by
  unfold ceVinWBS
  rw [show (4096 + 17 : Nat) = 4096 + vinWBS.length by rw [vinWBS_length],
    subarray_splice_window _ _ _ _ (by rw [vinWBS_length]; omega)]

/-- Every byte of `vinWBS` is plain ASCII, so the high-bit mask is the
    identity on it. -/
theorem vinWBS_mask : asciiMask vinWBS = vinWBS := by decide

theorem server_extractVin_ceVinWBS : Server.extractVin ceVinWBS = some vinWBS :=
  server_extractVin_first _ _ (by rw [ceVinWBS_window]; exact vinWBS_mask)
    vinWBS_valid

theorem frm_extractVIN_ceVinWBS : FrmConverter.extractVIN ceVinWBS = some vinWBS :=
  frm_extractVIN_first _ _ ceVinWBS_window vinWBS_valid

/-- The bundled server maps the prefix WBS to `null`. -/
theorem server_extractModel_unmapped (d v : List Nat)
    (hv : Server.extractVin d = some v)
    (h1 : v.take 3 ≠ asciiBytes "WBA") (h2 : v.take 3 ≠ asciiBytes "WBY")
    (h3 : v.take 3 ≠ asciiBytes "5UX") :
    Server.extractModel d = none := by
  unfold Server.extractModel
  rw [hv]
  dsimp only
  rw [if_neg h1, if_neg h2, if_neg h3]

theorem server_extractModel_ceVinWBS : Server.extractModel ceVinWBS = none :=
  server_extractModel_unmapped _ _ server_extractVin_ceVinWBS
    (by decide) (by decide) (by decide)

/-- The class converter maps the same prefix to a label via its larger
    table. -/
theorem frm_extractModel_some (d v : List Nat)
    (hv : FrmConverter.extractVIN d = some v) :
    FrmConverter.extractModel d =
      some ((FrmConverter.modelMap (v.take 3)).getD "BMW (Unknown Model)") := by
  unfold FrmConverter.extractModel
  rw [hv]

theorem frm_extractModel_ceVinWBS :
    FrmConverter.extractModel ceVinWBS = some "BMW M Series" := by
  rw [frm_extractModel_some _ _ frm_extractVIN_ceVinWBS]
  decide

theorem server_extractYear_eq (d v : List Nat) (hv : Server.extractVin d = some v) :
    Server.extractYear d = Server.yearMap (v.getD 9 0) := by
  unfold Server.extractYear
  rw [hv]

theorem server_extractYear_ceVinWBS : Server.extractYear ceVinWBS = some 2007 := by
  rw [server_extractYear_eq _ _ server_extractVin_ceVinWBS]
  decide

-- Facts about the mileage test images ---------------------------------

theorem ceMileageBE_length : ceMileageBE.length = 32768 := by
  unfold ceMileageBE
  rw [length_splice _ _ _ _ (by simp)]

theorem ceMileageBE_byte (i : Nat) (hout : ¬ (8448 ≤ i ∧ i < 8452))
    (hin : i < 32768) : ceMileageBE.getD i 0 = 255 := by
  unfold ceMileageBE
  rw [getD_splice _ _ _ _ _ (by simp)]
  simp only [List.length_cons, List.length_nil]
  rw [if_neg (by omega), if_pos hin]

theorem ceMileageBE_le_8448 : getUint32LE ceMileageBE 8448 = 16777216 := by
  unfold getUint32LE ceMileageBE
  rw [getD_splice _ _ _ _ _ (by simp), getD_splice _ _ _ _ _ (by simp),
    getD_splice _ _ _ _ _ (by simp), getD_splice _ _ _ _ _ (by simp)]
  norm_num

theorem ceMileageBE_be_8448 : getUint32BE ceMileageBE 8448 = 1 := by
  unfold getUint32BE ceMileageBE
  rw [getD_splice _ _ _ _ _ (by simp), getD_splice _ _ _ _ _ (by simp),
    getD_splice _ _ _ _ _ (by simp), getD_splice _ _ _ _ _ (by simp)]
  norm_num

theorem ceMileageBE_le_rest (off : Nat) (h : off = 8704 ∨ off = 8960 ∨ off = 9216) :
    getUint32LE ceMileageBE off = 4294967295 := by
  unfold getUint32LE
  rcases h with h | h | h <;> subst h <;>
    rw [ceMileageBE_byte _ (by omega) (by omega), ceMileageBE_byte _ (by omega) (by omega),
      ceMileageBE_byte _ (by omega) (by omega), ceMileageBE_byte _ (by omega) (by omega)]

/-- The class extractor accepts the big-endian reading 1 at its first
    offset, although no scanned offset has a plausible little-endian
    value. -/
theorem frm_extractMileage_ceMileageBE :
    FrmConverter.extractMileage ceMileageBE = some 1 :=
  frm_extractMileage_first_BE _ _ _ ceMileageBE_length ceMileageBE_le_8448
    (by omega) ceMileageBE_be_8448 (by omega)

theorem ceMileageLE_length : ceMileageLE.length = 32768 := by
  unfold ceMileageLE
  rw [length_splice _ _ _ _ (by simp)]

theorem ceMileageLE_le_8192 : getUint32LE ceMileageLE 8192 = 123456 := by
  unfold getUint32LE ceMileageLE
  rw [getD_splice _ _ _ _ _ (by simp), getD_splice _ _ _ _ _ (by simp),
    getD_splice _ _ _ _ _ (by simp), getD_splice _ _ _ _ _ (by simp)]
  norm_num

theorem server_extractMileage_ceMileageLE :
    Server.extractMileage ceMileageLE = Except.ok (some 123456) :=
  server_extractMileage_first _ _ (by rw [ceMileageLE_length]; omega)
    ceMileageLE_le_8192 (by omega)

-- Facts about `ceVinMasked` -------------------------------------------

/-- Seventeen 0xC1 bytes at the first scanned offset of the server scan:
    raw bytes outside the identifier alphabet whose high-bit masking under
    `toString("ascii")` spells seventeen As (0x41). -/
def ceVinMasked : List Nat :=
  writeBytes (List.replicate 32768 255) 4096 (List.replicate 17 193)

theorem ceVinMasked_length : ceVinMasked.length = 32768 := by
  unfold ceVinMasked
  rw [length_splice _ _ _ _ (by rw [List.length_replicate]; omega)]

theorem ceVinMasked_window :
    subarray ceVinMasked 4096 (4096 + 17) = List.replicate 17 193 := by
  unfold ceVinMasked
  rw [show (4096 + 17 : Nat) = 4096 + (List.replicate 17 (193 : Nat)).length from by
      rw [List.length_replicate],
    subarray_splice_window _ _ _ _ (by rw [List.length_replicate]; omega)]

/-- The raw window fails the alphabet test (0xC1 is no identifier
    character). -/
theorem ceVinMasked_raw_invalid :
    isValidVin (subarray ceVinMasked 4096 (4096 + 17)) = false := by
  rw [ceVinMasked_window]
  decide

/-- Yet the server scan accepts the window: the masked decoding
    "AAAAAAAAAAAAAAAAA" passes the regular expression. -/
theorem server_extractVin_ceVinMasked :
    Server.extractVin ceVinMasked = some (List.replicate 17 65) := by
  apply server_extractVin_first
  · rw [ceVinMasked_window, asciiMask_replicate]
  · decide

theorem ceVinMasked_byte (i : Nat) (hout : ¬ (4096 ≤ i ∧ i < 4113))
    (hin : i < 32768) : ceVinMasked.getD i 0 = 255 := by
  unfold ceVinMasked
  rw [getD_splice _ _ _ _ _ (by rw [List.length_replicate]; omega),
    List.length_replicate, if_neg (by omega), if_pos hin]

/-- The class scan, which tests the raw (windows-1252 decoded) bytes,
    rejects every window of `ceVinMasked`. -/
theorem frm_extractVIN_ceVinMasked :
    FrmConverter.extractVIN ceVinMasked = none := by
  apply frm_extractVIN_none
  intro off hoff
  have hoff3 : off = 4096 ∨ off = 5376 ∨ off = 8192 := by
    simpa [FrmConverter.VIN_PATTERNS] using hoff
  have hlen := ceVinMasked_length
  rcases hoff3 with h | h | h <;> subst h
  · refine slice_invalid_of_byte _ _ 0 (by omega) (by omega) ?_
    have hb : ceVinMasked.getD (4096 + 0) 0 = 193 := by
      unfold ceVinMasked
      rw [getD_splice _ _ _ _ _ (by rw [List.length_replicate]; omega),
        List.length_replicate, if_pos (by omega)]
      decide
    rw [hb]
    decide
  · exact slice_invalid_of_byte _ _ 0 (by omega) (by omega)
      (by rw [ceVinMasked_byte _ (by omega) (by omega)]; exact isVinChar_255)
  · exact slice_invalid_of_byte _ _ 0 (by omega) (by omega)
      (by rw [ceVinMasked_byte _ (by omega) (by omega)]; exact isVinChar_255)

-- ----------------------------------------------------------------------
-- Corruption-analysis machinery
-- ----------------------------------------------------------------------

/-- The server's corruption fold adds `(1024, 0)` for a blank sector and
    `(0, 1)` for a meaningful one; its result is determined by the number of
    blank sectors. -/
theorem foldl_pair (f : Nat × Nat → Nat → Nat × Nat) (g : Nat → Bool)
    (hf : ∀ acc s, f acc s =
      if g s then (acc.1 + 1024, acc.2) else (acc.1, acc.2 + 1)) :
    ∀ (l : List Nat) (a b : Nat), ∃ c r, c + r = l.length ∧
      l.foldl f (a, b) = (a + 1024 * c, b + r) := by
  intro l
  induction l with
  | nil =>
    intro a b
    exact ⟨0, 0, by simp, by simp⟩
  | cons s t ih =>
    intro a b
    rw [List.foldl_cons, hf]
    by_cases hg : g s = true
    · rw [if_pos hg]
      obtain ⟨c, r, hcr, hfold⟩ := ih (a + 1024) b
      exact ⟨c + 1, r, by simp; omega,
        by rw [hfold, show a + 1024 + 1024 * c = a + 1024 * (c + 1) by ring]⟩
    · rw [if_neg hg]
      obtain ⟨c, r, hcr, hfold⟩ := ih a (b + 1)
      exact ⟨c, r + 1, by simp; omega,
        by rw [hfold, show b + 1 + r = b + (r + 1) by ring]⟩

/-- `Math.round(num / den)` as an integer floor. -/
theorem jsRound_eq_floor (num den : Nat) (hden : 0 < den) :
    (jsRound num den : ℤ) = ⌊(num : ℚ) / (den : ℚ) + 1 / 2⌋ := by
  unfold jsRound
  have hden2 : ((den : ℚ)) ≠ 0 := by
    exact_mod_cast Nat.pos_iff_ne_zero.mp hden
  have harg : (num : ℚ) / (den : ℚ) + 1 / 2 =
      ((2 * num + den : ℕ) : ℚ) / ((2 * den : ℕ) : ℚ) := by
    push_cast
    field_simp
    ring
  rw [harg, Rat.floor_natCast_div_natCast]
  exact_mod_cast rfl

/-- When the mileage scan does not throw, `analyzeDFlash` returns the
    assembled report. -/
theorem server_analyzeDFlash_ok (d : List Nat) (mil : Option Nat)
    (hm : Server.extractMileage d = Except.ok mil) :
    Server.analyzeDFlash d = Except.ok
      { corruptionLevel := (Server.analyzeCorruption d).1,
        recoverableSectors := (Server.analyzeCorruption d).2,
        totalSectors := 32,
        vehicleData := { vin := Server.extractVin d,
                         model := Server.extractModel d,
                         year := Server.extractYear d,
                         mileage := mil,
                         frmType := Server.detectFrmType d },
        configurationData := Server.extractConfigurationData d } := by
  unfold Server.analyzeDFlash Server.extractVehicleData
  rw [hm]

/-- When the mileage scan throws, the analysis rethrows its generic
    error. -/
theorem server_analyzeDFlash_error (d : List Nat) (e : String)
    (hm : Server.extractMileage d = Except.error e) :
    Server.analyzeDFlash d = Except.error "Failed to analyze D-Flash data" := by
  unfold Server.analyzeDFlash Server.extractVehicleData
  rw [hm]

/-- The server analysis on a full-size image: the recoverable-sector count is
    at most 32 and the reported level is the rounded recoverability
    percentage. -/
theorem server_analyze_spec (d : List Nat) (hlen : d.length = 32768) :
    (Server.analyzeCorruption d).2 ≤ 32 ∧
    (Server.analyzeCorruption d).1 =
      ⌊(100 * ((Server.analyzeCorruption d).2 : ℚ)) / 32 + 1 / 2⌋ := by
  unfold Server.analyzeCorruption
  dsimp only
  obtain ⟨c, r, hcr, hfold⟩ := foldl_pair _
    (fun sector =>
      (subarray d (sector * 1024) (sector * 1024 + 1024)).all (fun byte => byte == 255) ||
      (subarray d (sector * 1024) (sector * 1024 + 1024)).all (fun byte => byte == 0))
    (fun acc s => rfl) (List.range 32) 0 0
  rw [List.length_range] at hcr
  rw [hfold]
  dsimp only
  rw [hlen]
  constructor
  · omega
  · have hc : (c : ℚ) = 32 - (r : ℚ) := by
      have : (c : ℚ) + (r : ℚ) = 32 := by exact_mod_cast hcr
      linarith
    congr 1
    push_cast
    rw [hc]
    ring

theorem countP_range_const (p : Nat → Bool) (n : Nat) (b : Bool)
    (h : ∀ i, i < n → p i = b) :
    (List.range n).countP p = if b then n else 0 := by
  cases b with
  | true =>
    rw [if_pos rfl]
    have := List.countP_eq_length.mpr
      (fun a ha => h a (List.mem_range.mp ha))
    rw [this, List.length_range]
  | false =>
    rw [if_neg (by simp)]
    exact List.countP_eq_zero.mpr
      (fun a ha hpa => by rw [h a (List.mem_range.mp ha)] at hpa; cases hpa)

/-- General report shape for a full-size image. -/
theorem frm_analyze_spec (d : List Nat) (hlen : d.length = 32768) :
    (FrmConverter.analyzeDFlashCorruption d).totalSectors = 32 ∧
    (FrmConverter.analyzeDFlashCorruption d).recoverableSectors ≤ 32 ∧
    ((FrmConverter.analyzeDFlashCorruption d).corruptionLevel : ℤ) =
      ⌊(100 * ((FrmConverter.analyzeDFlashCorruption d).recoverableSectors : ℚ)) / 32 + 1 / 2⌋ := by
  unfold FrmConverter.analyzeDFlashCorruption
  dsimp only
  rw [hlen, show (32768 / 1024 : Nat) = 32 from by norm_num]
  refine ⟨rfl, ?_, ?_⟩
  · calc (List.range 32).countP _ ≤ (List.range 32).length := List.countP_le_length _
      _ = 32 := List.length_range 32
  · rw [jsRound_eq_floor _ _ (by norm_num)]
    congr 1
    push_cast
    ring

/-- Uniform-content full-size image: every sector classifies the same
    way. -/
theorem frm_analyze_uniform (d : List Nat) (a : Nat) (b : Bool)
    (hlen : d.length = 32768)
    (hs : ∀ s, s < 32 → subarray d (s * 1024) (s * 1024 + 1024) = List.replicate 1024 a)
    (hb : (!(List.replicate 1024 a).all (fun byte => byte == 0x00) &&
           !(List.replicate 1024 a).all (fun byte => byte == 0xFF)) = b) :
    FrmConverter.analyzeDFlashCorruption d =
      { corruptionLevel := if b then 100 else 0,
        recoverableSectors := if b then 32 else 0,
        totalSectors := 32 } := by
  unfold FrmConverter.analyzeDFlashCorruption
  dsimp only
  rw [hlen, show (32768 / 1024 : Nat) = 32 from by norm_num,
    countP_range_const _ 32 b ?hpred]
  case hpred =>
    intro s hs2
    dsimp only
    rw [hs s hs2, hb]
  cases b <;> decide

/-- An all-0xFF image: every sector is blank, recoverability 0. -/
theorem frm_analyze_ff :
    FrmConverter.analyzeDFlashCorruption (List.replicate 32768 255) =
      { corruptionLevel := 0, recoverableSectors := 0, totalSectors := 32 } := by
  have h := frm_analyze_uniform (List.replicate 32768 255) 255 false
    (List.length_replicate ..)
    (fun s hs2 => by
      rw [subarray_replicate, show s * 1024 + 1024 - s * 1024 = 1024 from by omega,
        show min 1024 (32768 - s * 1024) = 1024 from by omega])
    (by decide)
  exact h.trans (by decide)

/-- A uniform 0x42 image: every sector is meaningful, recoverability
    100. -/
theorem frm_analyze_42 :
    FrmConverter.analyzeDFlashCorruption (List.replicate 32768 66) =
      { corruptionLevel := 100, recoverableSectors := 32, totalSectors := 32 } := by
  have h := frm_analyze_uniform (List.replicate 32768 66) 66 true
    (List.length_replicate ..)
    (fun s hs2 => by
      rw [subarray_replicate, show s * 1024 + 1024 - s * 1024 = 1024 from by omega,
        show min 1024 (32768 - s * 1024) = 1024 from by omega])
    (by decide)
  exact h.trans (by decide)

/-- The class analyzer happily reports on a 1024-byte input (no size
    check): one sector, fully recoverable for a 0x42 fill. -/
theorem frm_analyze_1024_uniform (d : List Nat) (hlen : d.length = 1024)
    (hs : subarray d 0 1024 = List.replicate 1024 66) :
    FrmConverter.analyzeDFlashCorruption d =
      { corruptionLevel := 100, recoverableSectors := 1, totalSectors := 1 } := by
  unfold FrmConverter.analyzeDFlashCorruption
  dsimp only
  rw [hlen, show (1024 / 1024 : Nat) = 1 from by norm_num,
    countP_range_const _ 1 true ?hpred]
  case hpred =>
    intro s hs2
    have hs0 : s = 0 := by omega
    subst hs0
    rw [show (0 * 1024 : Nat) = 0 from by norm_num] at *
    rw [show (0 + 1024 : Nat) = 1024 from by norm_num, hs]
    decide
  decide

theorem frm_analyze_1024 :
    FrmConverter.analyzeDFlashCorruption (List.replicate 1024 66) =
      { corruptionLevel := 100, recoverableSectors := 1, totalSectors := 1 } := by
  have h := frm_analyze_1024_uniform (List.replicate 1024 66)
    (List.length_replicate ..)
    (by rw [subarray_replicate, show min (1024 - 0) (1024 - 0) = 1024 from by omega])
  exact h

/-- The server conversion output is a checksum write over a 4096-byte
    stage whenever the mileage scan does not throw. -/
theorem server_convertOutput_calc (d : List Nat) (mil : Option Nat)
    (hm : Server.extractMileage d = Except.ok mil) :
    ∃ e3, e3.length = 4096 ∧
      Server.convertOutput d = Server.calculateEepromChecksums e3 := by
  unfold Server.convertOutput Server.convertDFlashToEEPROM
  rw [hm]
  dsimp only
  rw [Option.getD_some]
  have hcfg := Server.configSlice_length_le
    (asciiBytes (Server.configJson (Server.extractConfigurationFromDFlash d)))
  have hrep : (List.replicate 4096 0 : List Nat).length = 4096 := List.length_replicate ..
  cases hv : Server.extractVin d with
  | none =>
    cases mil with
    | none =>
      dsimp only
      refine ⟨_, ?_, rfl⟩
      rw [length_writeBytes _ _ _ (by omega), hrep]
    | some m =>
      dsimp only
      have l2 : (setUint32LE (List.replicate 4096 0) 48 m).length = 4096 := by
        rw [length_setUint32LE _ _ _ (by omega), hrep]
      refine ⟨_, ?_, rfl⟩
      rw [length_writeBytes _ _ _ (by omega), l2]
  | some v =>
    have hv17 := Server.extractVin_length d v hv
    dsimp only
    rw [if_neg (by omega : ¬ v.length = 0)]
    have l1 : (writeBytes (List.replicate 4096 0) 16 v).length = 4096 := by
      rw [length_writeBytes _ _ _ (by omega), hrep]
    cases mil with
    | none =>
      dsimp only
      refine ⟨_, ?_, rfl⟩
      rw [length_writeBytes _ _ _ (by omega), l1]
    | some m =>
      dsimp only
      have l2 : (setUint32LE (writeBytes (List.replicate 4096 0) 16 v) 48 m).length = 4096 := by
        rw [length_setUint32LE _ _ _ (by omega), l1]
      refine ⟨_, ?_, rfl⟩
      rw [length_writeBytes _ _ _ (by omega), l2]

/-- A found mileage reaches the server output little-endian at
    `[0x30, 0x34)`. -/
theorem server_out_mileage_getD (d : List Nat) (m i : Nat)
    (hm : Server.extractMileage d = Except.ok (some m)) (hi : 48 ≤ i ∧ i < 52) :
    (Server.convertOutput d).getD i 0 = (leBytes m).getD (i - 48) 0 := by
  unfold Server.convertOutput Server.convertDFlashToEEPROM
  rw [hm]
  dsimp only
  rw [Option.getD_some]
  have hcfg := Server.configSlice_length_le
    (asciiBytes (Server.configJson (Server.extractConfigurationFromDFlash d)))
  have hrep : (List.replicate 4096 0 : List Nat).length = 4096 := List.length_replicate ..
  cases hv : Server.extractVin d with
  | none =>
    dsimp only
    have l2 : (setUint32LE (List.replicate 4096 0) 48 m).length = 4096 := by
      rw [length_setUint32LE _ _ _ (by omega), hrep]
    have l3 : (writeBytes (setUint32LE (List.replicate 4096 0) 48 m) 256
        ((asciiBytes (Server.configJson (Server.extractConfigurationFromDFlash d))).take
          (min (asciiBytes (Server.configJson (Server.extractConfigurationFromDFlash d))).length 1024))).length = 4096 := by
      rw [length_writeBytes _ _ _ (by omega), l2]
    rw [Server.getD_calcEeprom_lt _ _ l3 (by omega),
      getD_writeBytes _ _ _ _ (by omega), if_neg (by omega),
      getD_setUint32LE _ _ _ _ (by omega), if_pos hi]
  | some v =>
    have hv17 := Server.extractVin_length d v hv
    dsimp only
    rw [if_neg (by omega : ¬ v.length = 0)]
    have l1 : (writeBytes (List.replicate 4096 0) 16 v).length = 4096 := by
      rw [length_writeBytes _ _ _ (by omega), hrep]
    have l2 : (setUint32LE (writeBytes (List.replicate 4096 0) 16 v) 48 m).length = 4096 := by
      rw [length_setUint32LE _ _ _ (by omega), l1]
    have l3 : (writeBytes (setUint32LE (writeBytes (List.replicate 4096 0) 16 v) 48 m) 256
        ((asciiBytes (Server.configJson (Server.extractConfigurationFromDFlash d))).take
          (min (asciiBytes (Server.configJson (Server.extractConfigurationFromDFlash d))).length 1024))).length = 4096 := by
      rw [length_writeBytes _ _ _ (by omega), l2]
    rw [Server.getD_calcEeprom_lt _ _ l3 (by omega),
      getD_writeBytes _ _ _ _ (by omega), if_neg (by omega),
      getD_setUint32LE _ _ _ _ (by omega), if_pos hi]

/-- Decoding the server's mileage field recovers the extracted value. -/
theorem server_out_mileage_readback (d : List Nat) (m : Nat)
    (hm : Server.extractMileage d = Except.ok (some m)) :
    getUint32LE (Server.convertOutput d) 48 = m := by
  have hr := Server.extractMileage_bounds d m hm
  unfold getUint32LE
  rw [server_out_mileage_getD _ _ 48 hm (by omega),
    server_out_mileage_getD _ _ (48 + 1) hm (by omega),
    server_out_mileage_getD _ _ (48 + 2) hm (by omega),
    server_out_mileage_getD _ _ (48 + 3) hm (by omega),
    show (48 - 48 : Nat) = 0 from rfl, show (48 + 1 - 48 : Nat) = 1 from rfl,
    show (48 + 2 - 48 : Nat) = 2 from rfl, show (48 + 3 - 48 : Nat) = 3 from rfl,
    leBytes_decode]
  omega

/-- Decoding the class converter's mileage field recovers the extracted
    value. -/
theorem frm_out_mileage_readback (d : List Nat) (m : Nat) (h : d.length = 32768)
    (hm : FrmConverter.extractMileage d = some m) :
    getUint32LE (FrmConverter.convertOutput d) 48 = m := by
  have hr := FrmConverter.extractMileage_range d m hm
  unfold getUint32LE
  rw [FrmConverter.frm_out_mileage_some _ _ 48 h hm (by omega),
    FrmConverter.frm_out_mileage_some _ _ (48 + 1) h hm (by omega),
    FrmConverter.frm_out_mileage_some _ _ (48 + 2) h hm (by omega),
    FrmConverter.frm_out_mileage_some _ _ (48 + 3) h hm (by omega),
    show (48 - 48 : Nat) = 0 from rfl, show (48 + 1 - 48 : Nat) = 1 from rfl,
    show (48 + 2 - 48 : Nat) = 2 from rfl, show (48 + 3 - 48 : Nat) = 3 from rfl,
    leBytes_decode]
  omega

-- ----------------------------------------------------------------------
-- Signature-detector lemmas
-- ----------------------------------------------------------------------

/-- The server detector's result depends only on the window `[256, 272)`
    and on whether the length equals 32768; the second window is never
    consulted. -/
theorem server_detect_window1_only (d1 d2 : List Nat)
    (hwin : subarray d1 256 272 = subarray d2 256 272)
    (hlen : d1.length = 32768 ↔ d2.length = 32768) :
    Server.detectFrmType d1 = Server.detectFrmType d2 := by
  unfold Server.detectFrmType
  dsimp only
  rw [hwin]
  by_cases h1 : containsSeq (subarray d2 256 272) (asciiBytes "XEQ384") = true
  · rw [if_pos h1, if_pos h1]
  · rw [if_neg h1, if_neg h1]
    by_cases h2 : containsSeq (subarray d2 256 272) (asciiBytes "XET512") = true
    · rw [if_pos h2, if_pos h2]
    · rw [if_neg h2, if_neg h2]
      by_cases h3 : d2.length = 32768
      · rw [if_pos (hlen.mpr h3), if_pos h3]
      · rw [if_neg (fun hh => h3 (hlen.mp hh)), if_neg h3]

theorem server_detect_unknown (d : List Nat) (hlen : d.length = 32768)
    (h1 : containsSeq (subarray d 256 272) (asciiBytes "XEQ384") = ( false))
    (h2 : containsSeq (subarray d 256 272) (asciiBytes "XET512") = ( false)) :
    Server.detectFrmType d = "FRM3 Unknown" := by
  unfold Server.detectFrmType
  dsimp only
  rw [h1, if_neg (by simp), h2, if_neg (by simp), if_pos hlen]

theorem server_detect_frm2 (d : List Nat) (hlen : d.length ≠ 32768)
    (h1 : containsSeq (subarray d 256 272) (asciiBytes "XEQ384") = ( false))
    (h2 : containsSeq (subarray d 256 272) (asciiBytes "XET512") = ( false)) :
    Server.detectFrmType d = "FRM2" := by
  unfold Server.detectFrmType
  dsimp only
  rw [h1, if_neg (by simp), h2, if_neg (by simp), if_neg hlen]

theorem server_detect_xeq (d : List Nat)
    (h1 : containsSeq (subarray d 256 272) (asciiBytes "XEQ384") = true) :
    Server.detectFrmType d = "FRM3 XEQ384" := by
  unfold Server.detectFrmType
  dsimp only
  rw [h1, if_pos rfl]

theorem frm_detect_xeq (d : List Nat)
    (h : containsSeq d (asciiBytes "XEQ384") = true) :
    FrmConverter.detectFRMType d = "FRM3 XEQ384" := by
  unfold FrmConverter.detectFRMType
  rw [h, if_pos rfl]

/-- A witnessed occurrence makes `containsSeq` true. -/
theorem containsSeq_of_slice (hay pat : List Nat) (i : Nat)
    (hi : i < hay.length + 1)
    (h : subarray hay i (i + pat.length) = pat) :
    containsSeq hay pat = true := by
  unfold containsSeq
  rw [List.any_eq_true]
  exact ⟨i, List.mem_range.mpr hi, by rw [h]; simp⟩

/-- A slice beginning inside the spliced window and running past it. -/
theorem subarray_splice_overlap (n a off k : Nat) (data : List Nat)
    (h : off + data.length + k ≤ n) :
    subarray (writeBytes (List.replicate n a) off data) off (off + data.length + k) =
      data ++ List.replicate k a := by
  apply ext_getD
  · rw [length_subarray, length_splice _ _ _ _ (by omega), List.length_append,
      List.length_replicate]
    omega
  · intro j hj
    rw [length_subarray, length_splice _ _ _ _ (by omega)] at hj
    have hj2 : j < data.length + k := by omega
    rw [getD_subarray _ _ _ _ (by omega), getD_splice _ _ _ _ _ (by omega)]
    by_cases hjd : j < data.length
    · rw [if_pos (by omega), show off + j - off = j from by omega,
        List.getD_eq_getElem?_getD, List.getD_eq_getElem?_getD,
        List.getElem?_append_left hjd]
    · rw [if_neg (by omega), if_pos (by omega), List.getD_eq_getElem?_getD,
        List.getElem?_append_right (by omega), List.getElem?_replicate,
        if_pos (by omega)]
      rfl

-- Facts about the marker images ----------------------------------------

theorem ceMarkerWin2_length : ceMarkerWin2.length = 32768 := by
  unfold ceMarkerWin2
  rw [length_splice _ _ _ _ (by rw [xeq384_length]; omega)]

theorem ceMarkerWin2_win1 :
    subarray ceMarkerWin2 256 272 = List.replicate 16 255 := by
  unfold ceMarkerWin2
  rw [show (List.replicate 16 (255 : Nat)) = List.replicate (272 - 256) 255 from rfl]
  exact subarray_splice_outside _ _ _ _ _ _ (by rw [xeq384_length]; omega)
    (Or.inl (by omega)) (by omega)

/-- The second window of `ceMarkerWin2` contains the marker. -/
theorem ceMarkerWin2_win2 :
    subarray ceMarkerWin2 512 528 = xeq384 ++ List.replicate 10 255 := by
  unfold ceMarkerWin2
  rw [show (528 : Nat) = 512 + xeq384.length + 10 from by rw [xeq384_length]]
  exact subarray_splice_overlap _ _ _ _ _ (by rw [xeq384_length]; omega)

theorem ceMarkerWin2_win2_contains :
    containsSeq (subarray ceMarkerWin2 512 528) (asciiBytes "XEQ384") = true := by
  rw [ceMarkerWin2_win2]
  decide

theorem server_detect_ceMarkerWin2 :
    Server.detectFrmType ceMarkerWin2 = "FRM3 Unknown" :=
  server_detect_unknown _ ceMarkerWin2_length
    (by rw [ceMarkerWin2_win1]; decide) (by rw [ceMarkerWin2_win1]; decide)

theorem ceMarkerAt0_length : ceMarkerAt0.length = 32768 := by
  unfold ceMarkerAt0
  rw [length_splice _ _ _ _ (by rw [xeq384_length]; omega)]

theorem ceMarkerAt0_win1 :
    subarray ceMarkerAt0 256 272 = List.replicate 16 255 := by
  unfold ceMarkerAt0
  rw [show (List.replicate 16 (255 : Nat)) = List.replicate (272 - 256) 255 from rfl]
  exact subarray_splice_outside _ _ _ _ _ _ (by rw [xeq384_length]; omega)
    (Or.inr (by rw [xeq384_length]; omega)) (by omega)

theorem ceMarkerAt0_win2 :
    subarray ceMarkerAt0 512 528 = List.replicate 16 255 := by
  unfold ceMarkerAt0
  rw [show (List.replicate 16 (255 : Nat)) = List.replicate (528 - 512) 255 from rfl]
  exact subarray_splice_outside _ _ _ _ _ _ (by rw [xeq384_length]; omega)
    (Or.inr (by rw [xeq384_length]; omega)) (by omega)

theorem ceMarkerAt0_contains :
    containsSeq ceMarkerAt0 (asciiBytes "XEQ384") = true := by
  apply containsSeq_of_slice _ _ 0 (by rw [ceMarkerAt0_length]; omega)
  have h : subarray ceMarkerAt0 0 (0 + xeq384.length) = xeq384 := by
    unfold ceMarkerAt0
    exact subarray_splice_window _ _ _ _ (by rw [xeq384_length]; omega)
  exact h

theorem frm_detect_ceMarkerAt0 :
    FrmConverter.detectFRMType ceMarkerAt0 = "FRM3 XEQ384" :=
  frm_detect_xeq _ ceMarkerAt0_contains

-- ----------------------------------------------------------------------
-- Claims
-- ----------------------------------------------------------------------

/-- Claim C1, amended: the `FrmConverter` conversion rejects every input
    whose length is not 32768 with a size-mismatch error naming the expected
    and actual lengths, producing no image and no vehicle data; its
    corruption analysis performs no size check (it reports `length / 1024`
    sectors).  The bundled server conversion performs no size check either:
    it fails (success `false`, no artifact, the error propagated) exactly
    when the mileage scan reads out of bounds — never for inputs of 12288
    bytes or more, always for inputs shorter than 8196 bytes — and
    otherwise reports success with a 4096-byte artifact; the server
    analysis rethrows the same out-of-range error as its generic analysis
    failure. -/
theorem claim_C1 :
    (∀ d : List Nat, d.length ≠ 32768 →
      FrmConverter.convertDFlashToEEPROM d =
        { success := false, eepromData := none,
          error := some ("Invalid D-Flash size. Expected " ++
            toString FrmConverter.DFLASH_SIZE ++ " bytes, got " ++
            toString d.length ++ " bytes"),
          vehicleData := none })
    ∧ (∀ d : List Nat,
        (FrmConverter.analyzeDFlashCorruption d).totalSectors = d.length / 1024)
    ∧ (∀ (d : List Nat) (e : String), Server.extractMileage d = Except.error e →
        Server.convertDFlashToEEPROM d =
          { success := false, eepromData := none, error := some e } ∧
        Server.analyzeDFlash d = Except.error "Failed to analyze D-Flash data")
    ∧ (∀ (d : List Nat) (mil : Option Nat),
        Server.extractMileage d = Except.ok mil →
        (Server.convertDFlashToEEPROM d).success = true ∧
        (Server.convertOutput d).length = 4096 ∧
        ∃ r, Server.analyzeDFlash d = Except.ok r)
    ∧ (∀ d : List Nat, 12288 ≤ d.length →
        ∃ mil, Server.extractMileage d = Except.ok mil)
    ∧ (∀ d : List Nat, d.length < 8196 →
        Server.extractMileage d = Except.error "ERR_OUT_OF_RANGE") := by
  refine ⟨?_, fun d => rfl, ?_, ?_, Server.extractMileage_ok, ?_⟩
  · intro d hd
    unfold FrmConverter.convertDFlashToEEPROM
    rw [if_pos (by simpa [FrmConverter.DFLASH_SIZE] using hd)]
  · intro d e hm
    exact ⟨Server.convert_error d e hm, server_analyzeDFlash_error d e hm⟩
  · intro d mil hm
    exact ⟨by rw [Server.convert_eq d mil hm],
      Server.length_convertOutput d mil hm,
      ⟨_, server_analyzeDFlash_ok d mil hm⟩⟩
  · intro d hd
    unfold Server.extractMileage
    rw [show (1024 : Nat) = 1023 + 1 from rfl, List.range'_succ]
    unfold Server.mileageScan Server.readUInt32LE
    rw [if_neg (by omega)]

/-- Witness for C1 at a length-5 input (both failure paths) and the
    no-throw path at the full-size all-0xFF image. -/
theorem claim_C1_witness :
    (List.replicate 5 (0 : Nat)).length ≠ 32768 ∧
    FrmConverter.convertDFlashToEEPROM (List.replicate 5 0) =
      { success := false, eepromData := none,
        error := some ("Invalid D-Flash size. Expected " ++
          toString FrmConverter.DFLASH_SIZE ++ " bytes, got " ++
          toString (List.replicate 5 (0 : Nat)).length ++ " bytes"),
        vehicleData := none } ∧
    Server.extractMileage (List.replicate 5 0) =
      Except.error "ERR_OUT_OF_RANGE" ∧
    Server.convertDFlashToEEPROM (List.replicate 5 0) =
      { success := false, eepromData := none,
        error := some "ERR_OUT_OF_RANGE" } ∧
    ∃ mil, Server.extractMileage (List.replicate 32768 255) = Except.ok mil := by
  have herr := claim_C1.2.2.2.2.2 (List.replicate 5 0)
    (by rw [List.length_replicate]; omega)
  exact ⟨by rw [List.length_replicate]; omega,
    claim_C1.1 _ (by rw [List.length_replicate]; omega),
    herr,
    (claim_C1.2.2.1 _ _ herr).1,
    claim_C1.2.2.2.2.1 _ (by rw [List.length_replicate]; omega)⟩

/-- Counterexample to C1 as stated: the bundled server conversion does not
    check the input size — on a 16384-byte all-zero input (whose mileage
    reads all stay in bounds) it reports success and produces a full
    4096-byte artifact — and the class corruption analysis returns a plain
    report (not a size-mismatch error) on a 1024-byte input. -/
theorem claim_C1_counterexample :
    (List.replicate 16384 (0 : Nat)).length ≠ 32768
    ∧ (Server.convertDFlashToEEPROM (List.replicate 16384 0)).success = true
    ∧ (Server.convertOutput (List.replicate 16384 0)).length = 4096
    ∧ FrmConverter.analyzeDFlashCorruption (List.replicate 1024 66) =
        { corruptionLevel := 100, recoverableSectors := 1, totalSectors := 1 } :=
  ⟨by rw [List.length_replicate]; omega,
   by rw [Server.convert_eq _ none server_extractMileage_zeros16384],
   Server.length_convertOutput _ none server_extractMileage_zeros16384,
   frm_analyze_1024⟩

/-- Claim C2: for every 32768-byte input, both conversions produce a
    4096-byte image whose final 4 bytes hold, little-endian, the additive
    sum (mod 2^32) of the preceding 4092 bytes — recomputing the checksum
    over the produced image matches the stored field. -/
theorem claim_C2 (d : List Nat) (h : d.length = 32768) :
    (FrmConverter.convertOutput d).length = 4096 ∧
    sumRange (FrmConverter.convertOutput d) 4092 % 4294967296 =
      getUint32LE (FrmConverter.convertOutput d) 4092 ∧
    (Server.convertOutput d).length = 4096 ∧
    sumRange (Server.convertOutput d) 4092 % 4294967296 =
      getUint32LE (Server.convertOutput d) 4092 := by
  obtain ⟨mil, hm⟩ := Server.extractMileage_ok d (by omega)
  refine ⟨FrmConverter.frm_length_convertOutput d h, ?_,
    Server.length_convertOutput d mil hm, ?_⟩
  · rw [FrmConverter.convertOutput_eq d h]
    simp only [FrmConverter.EEPROM_SIZE]
    have hsum := sumRange_congr
      (FrmConverter.calculateChecksums (FrmConverter.writeConfigurationData
        (FrmConverter.writeVehicleData (FrmConverter.writeEEPROMHeader
          (List.replicate 4096 255)) (FrmConverter.extractVehicleData d)) d))
      (FrmConverter.writeConfigurationData (FrmConverter.writeVehicleData
        (FrmConverter.writeEEPROMHeader (List.replicate 4096 255))
        (FrmConverter.extractVehicleData d)) d) 4092
      (fun i hi => FrmConverter.getD_calculateChecksums_lt _ _ (FrmConverter.frm_l3 d) hi)
    rw [hsum, frm_checksum_readback _ (FrmConverter.frm_l3 d)]
  · obtain ⟨e3, hlen3, heq⟩ := server_convertOutput_calc d mil hm
    rw [heq]
    have hsum := sumRange_congr (Server.calculateEepromChecksums e3) e3 4092
      (fun i hi => Server.getD_calcEeprom_lt _ _ hlen3 hi)
    rw [hsum, server_checksum_readback _ hlen3]

/-- Witness for C2 at the all-0xFF image. -/
theorem claim_C2_witness :
    (List.replicate 32768 (255 : Nat)).length = 32768 ∧
    ((FrmConverter.convertOutput (List.replicate 32768 255)).length = 4096 ∧
     sumRange (FrmConverter.convertOutput (List.replicate 32768 255)) 4092 % 4294967296 =
       getUint32LE (FrmConverter.convertOutput (List.replicate 32768 255)) 4092 ∧
     (Server.convertOutput (List.replicate 32768 255)).length = 4096 ∧
     sumRange (Server.convertOutput (List.replicate 32768 255)) 4092 % 4294967296 =
       getUint32LE (Server.convertOutput (List.replicate 32768 255)) 4092) :=
  ⟨List.length_replicate .., claim_C2 _ (List.length_replicate ..)⟩

/-- Claim C3, amended: in the `FrmConverter` implementation the image is
    filled with 0xFF and every byte outside the header/identifier region
    `[0, 0x21)`, the odometer field `[0x30, 0x34)`, the configuration block
    `[0x100, 0x104)` and the checksum `[0xFFC, 0x1000)` stays 0xFF; an
    absent identifier leaves 0xFF on `[0x10, 0x21)` and an absent odometer
    leaves 0xFF on `[0x30, 0x34)`.  The bundled server implementation
    zero-fills its buffer instead (see the counterexample). -/
theorem claim_C3 (d : List Nat) (h : d.length = 32768) :
    (∀ i, 33 ≤ i → i < 4092 → ¬ (48 ≤ i ∧ i < 52) → ¬ (256 ≤ i ∧ i < 260) →
      (FrmConverter.convertOutput d).getD i 0 = 255)
    ∧ (FrmConverter.extractVIN d = none →
        ∀ i, 16 ≤ i → i < 33 → (FrmConverter.convertOutput d).getD i 0 = 255)
    ∧ (FrmConverter.extractMileage d = none →
        ∀ i, 48 ≤ i → i < 52 → (FrmConverter.convertOutput d).getD i 0 = 255) :=
  ⟨fun i h1 h2 h3 h4 => FrmConverter.frm_out_untouched d i h h1 h3 h4 h2,
   fun hv i h1 h2 => FrmConverter.frm_out_vin_none d i h hv ⟨h1, h2⟩,
   fun hm i h1 h2 => FrmConverter.frm_out_mileage_none d i h hm ⟨h1, h2⟩⟩

/-- Witness for C3 at the all-0xFF image (identifier absent there). -/
theorem claim_C3_witness :
    (List.replicate 32768 (255 : Nat)).length = 32768 ∧
    FrmConverter.extractVIN (List.replicate 32768 255) = none ∧
    (FrmConverter.convertOutput (List.replicate 32768 255)).getD 20 0 = 255 ∧
    (FrmConverter.convertOutput (List.replicate 32768 255)).getD 100 0 = 255 :=
  ⟨List.length_replicate .., frm_extractVIN_ff,
   (claim_C3 _ (List.length_replicate ..)).2.1 frm_extractVIN_ff 20 (by omega) (by omega),
   (claim_C3 _ (List.length_replicate ..)).1 100 (by omega) (by omega) (by omega) (by omega)⟩

/-- Counterexample to C3 as stated: the bundled server conversion
    zero-fills.  On the all-0xFF image no identifier is found, yet output
    byte 0x10 is 0x00 — not the claimed fill value 0xFF — and so is the
    uncovered byte 100. -/
theorem claim_C3_counterexample :
    Server.extractVin (List.replicate 32768 255) = none ∧
    (Server.convertOutput (List.replicate 32768 255)).getD 16 0 = 0 ∧
    (Server.convertOutput (List.replicate 32768 255)).getD 100 0 = 0 :=
  ⟨server_extractVin_ff,
   Server.convertOutput_getD_small _ _ server_extractVin_ff
     server_extractMileage_ff (by omega),
   Server.convertOutput_getD_small _ _ server_extractVin_ff
     server_extractMileage_ff (by omega)⟩

/-- Claim C4, amended: the `FrmConverter` conversion writes the fixed
    16-byte header AA 55 FF 00 | 01 00 00 00 | 00 10 00 00 | 00 00 00 00
    at offset 0 (its first field write, and no later field overlaps it, so
    it survives into the output).  The bundled server conversion writes no
    header at all (see the counterexample). -/
theorem claim_C4 :
    (∀ d : List Nat, d.length = 32768 → ∀ i, i < 16 →
      (FrmConverter.convertOutput d).getD i 0 = FrmConverter.headerBytes.getD i 0)
    ∧ FrmConverter.headerBytes =
        [0xAA, 0x55, 0xFF, 0x00, 0x01, 0x00, 0x00, 0x00,
         0x00, 0x10, 0x00, 0x00, 0x00, 0x00, 0x00, 0x00] :=
  ⟨fun d h i hi => FrmConverter.frm_out_header d i h hi, rfl⟩

/-- Witness for C4: the magic byte 0xAA is at offset 0 of the output for
    the all-0xFF image. -/
theorem claim_C4_witness :
    (List.replicate 32768 (255 : Nat)).length = 32768 ∧
    (FrmConverter.convertOutput (List.replicate 32768 255)).getD 0 0 =
      FrmConverter.headerBytes.getD 0 0 :=
  ⟨List.length_replicate .., claim_C4.1 _ (List.length_replicate ..) 0 (by omega)⟩

/-- Counterexample to C4 as stated: the bundled server conversion writes
    no header — byte 0 of its output is the 0x00 fill, not 0xAA, although
    the conversion reports success. -/
theorem claim_C4_counterexample :
    (Server.convertOutput (List.replicate 32768 255)).getD 0 0 = 0 ∧
    (Server.convertDFlashToEEPROM (List.replicate 32768 255)).success = true :=
  ⟨Server.convertOutput_getD_small _ _ server_extractVin_ff
     server_extractMileage_ff (by omega),
   by rw [Server.convert_eq _ none server_extractMileage_ff]⟩

/-- An out-of-alphabet member byte rejects a candidate. -/
theorem isValidVin_false_of_mem (s : List Nat) (c : Nat) (hc : c ∈ s)
    (hbad : isVinChar c = false) : isValidVin s = false := by
  unfold isValidVin
  rw [Bool.and_eq_false_iff]
  right
  rw [List.all_eq_false]
  exact ⟨c, hc, by rw [hbad]; simp⟩

/-- First-match characterisation shared by both identifier scans; `w off`
    is the decoded candidate at offset `off` (the raw window for the class
    scan, the masked window for the server scan). -/
theorem scan_first_spec (offs : List Nat) (w : Nat → List Nat) (v : List Nat)
    (h : offs.findSome? (fun off =>
        if isValidVin (w off) then some (w off) else none) = some v) :
    isValidVin v = true ∧ ∃ i, i < offs.length ∧
      v = w (offs.getD i 0) ∧
      ∀ j, j < i → isValidVin (w (offs.getD j 0)) = false := by
  obtain ⟨i, hi, hf, hprev⟩ := findSome?_first _ _ _ h
  have hmain : isValidVin v = true ∧ v = w (offs.getD i 0) := by
    by_cases hval : isValidVin (w (offs.getD i 0)) = true
    · rw [if_pos hval] at hf
      cases hf
      exact ⟨hval, rfl⟩
    · rw [if_neg hval] at hf
      cases hf
  refine ⟨hmain.1, i, hi, hmain.2, fun j hj => ?_⟩
  have hfj := hprev j hj
  by_cases hval : isValidVin (w (offs.getD j 0)) = true
  · rw [if_pos hval] at hfj
    cases hfj
  · exact Bool.not_eq_true _ |>.mp hval

/-- Claim C5: on a full-size image both analyzers report 32 sectors, a
    recoverable count between 0 and 32, and the level
    `round(100 * recoverable / 32)` (round half up); for the server the
    analysis succeeds (the mileage reads are in bounds) with those report
    fields.  An all-0xFF image scores 0 and a uniform 0x42 image scores
    100. -/
theorem claim_C5 :
    (∀ d : List Nat, d.length = 32768 →
      (FrmConverter.analyzeDFlashCorruption d).totalSectors = 32 ∧
      (FrmConverter.analyzeDFlashCorruption d).recoverableSectors ≤ 32 ∧
      ((FrmConverter.analyzeDFlashCorruption d).corruptionLevel : ℤ) =
        ⌊(100 * ((FrmConverter.analyzeDFlashCorruption d).recoverableSectors : ℚ)) / 32 + 1 / 2⌋ ∧
      ∃ r, Server.analyzeDFlash d = Except.ok r ∧
        r.totalSectors = 32 ∧ r.recoverableSectors ≤ 32 ∧
        r.corruptionLevel =
          ⌊(100 * (r.recoverableSectors : ℚ)) / 32 + 1 / 2⌋)
    ∧ FrmConverter.analyzeDFlashCorruption (List.replicate 32768 255) =
        { corruptionLevel := 0, recoverableSectors := 0, totalSectors := 32 }
    ∧ FrmConverter.analyzeDFlashCorruption (List.replicate 32768 66) =
        { corruptionLevel := 100, recoverableSectors := 32, totalSectors := 32 } := by
  refine ⟨fun d h => ?_, frm_analyze_ff, frm_analyze_42⟩
  obtain ⟨h1, h2, h3⟩ := frm_analyze_spec d h
  obtain ⟨h4, h5⟩ := server_analyze_spec d h
  obtain ⟨mil, hm⟩ := Server.extractMileage_ok d (by omega)
  exact ⟨h1, h2, h3, _, server_analyzeDFlash_ok d mil hm, rfl, h4, h5⟩

/-- Witness for C5 at the uniform 0x42 image. -/
theorem claim_C5_witness :
    (List.replicate 32768 (66 : Nat)).length = 32768 ∧
    (FrmConverter.analyzeDFlashCorruption (List.replicate 32768 66)).totalSectors = 32 ∧
    ∃ r, Server.analyzeDFlash (List.replicate 32768 66) = Except.ok r ∧
      r.totalSectors = 32 ∧ r.recoverableSectors ≤ 32 ∧
      r.corruptionLevel = ⌊(100 * (r.recoverableSectors : ℚ)) / 32 + 1 / 2⌋ :=
  ⟨List.length_replicate ..,
   (claim_C5.1 _ (List.length_replicate ..)).1,
   (claim_C5.1 _ (List.length_replicate ..)).2.2.2⟩

/-- Claim C6, amended: a decoded candidate containing I (73), O (79) or
    Q (81) is never accepted; both extractors return the first valid
    decoded 17-byte candidate in ascending offset order (three fixed
    windows for the class scan, stride 16 over [0x1000, 0x2000) for the
    server scan) and absence when no scanned offset matches.  The class
    scan decodes windows-1252 (the raw bytes); the server scan decodes
    `toString("ascii")`, which masks the high bit of every byte, so its
    accepted candidate is the masked window — raw bytes outside the
    alphabet can be accepted when their masked values spell a valid
    identifier (see the counterexample). -/
theorem claim_C6 :
    (∀ s : List Nat, ∀ c ∈ s, (c = 73 ∨ c = 79 ∨ c = 81) → isValidVin s = false)
    ∧ (∀ d v : List Nat, FrmConverter.extractVIN d = some v →
        isValidVin v = true ∧ ∃ i, i < 3 ∧
          v = subarray d (FrmConverter.VIN_PATTERNS.getD i 0)
                (FrmConverter.VIN_PATTERNS.getD i 0 + 17) ∧
          ∀ j, j < i →
            isValidVin (subarray d (FrmConverter.VIN_PATTERNS.getD j 0)
              (FrmConverter.VIN_PATTERNS.getD j 0 + 17)) = false)
    ∧ (∀ d : List Nat, (∀ off ∈ FrmConverter.VIN_PATTERNS,
        isValidVin (subarray d off (off + 17)) = false) →
        FrmConverter.extractVIN d = none)
    ∧ (∀ d v : List Nat, Server.extractVin d = some v →
        isValidVin v = true ∧ ∃ i, i < 256 ∧
          v = asciiMask (subarray d (4096 + 16 * i) (4096 + 16 * i + 17)) ∧
          ∀ j, j < i →
            isValidVin (asciiMask
              (subarray d (4096 + 16 * j) (4096 + 16 * j + 17))) = false)
    ∧ (∀ d : List Nat, (∀ i, i < 256 →
        isValidVin (asciiMask (subarray d (4096 + 16 * i) (4096 + 16 * i + 17))) = false) →
        Server.extractVin d = none) := by
  refine ⟨?_, ?_, frm_extractVIN_none, ?_, ?_⟩
  · intro s c hc hcval
    refine isValidVin_false_of_mem s c hc ?_
    rcases hcval with h | h | h <;> subst h <;> decide
  · intro d v hv
    unfold FrmConverter.extractVIN at hv
    obtain ⟨hval, i, hi, hveq, hprev⟩ :=
      scan_first_spec _ (fun off => subarray d off (off + 17)) _ hv
    exact ⟨hval, i, hi, hveq, hprev⟩
  · intro d v hv
    unfold Server.extractVin at hv
    obtain ⟨hval, i, hi, hveq, hprev⟩ :=
      scan_first_spec _ (fun off => asciiMask (subarray d off (off + 17))) _ hv
    rw [List.length_range'] at hi
    rw [range'_getD _ _ _ _ hi] at hveq
    refine ⟨hval, i, hi, hveq, fun j hj => ?_⟩
    have hpj := hprev j hj
    rwa [range'_getD _ _ _ _ (by omega)] at hpj
  · intro d h
    apply server_extractVin_none
    intro off hoff
    rw [List.mem_range'] at hoff
    obtain ⟨i, hi, hoffeq⟩ := hoff
    subst hoffeq
    exact h i hi

/-- Witness for C6: an I-containing candidate, a found WBS identifier on
    `ceVinWBS`, and absence on a blank image. -/
theorem claim_C6_witness :
    ((73 : Nat) ∈ [73] ∧ isValidVin [73] = false)
    ∧ (Server.extractVin ceVinWBS = some vinWBS ∧ isValidVin vinWBS = true)
    ∧ ((∀ off ∈ FrmConverter.VIN_PATTERNS,
        isValidVin (subarray (List.replicate 32768 255) off (off + 17)) = false) ∧
       FrmConverter.extractVIN (List.replicate 32768 255) = none) := by
  have hoffs : ∀ off ∈ FrmConverter.VIN_PATTERNS,
      isValidVin (subarray (List.replicate 32768 255) off (off + 17)) = false := by
    intro off hoff
    have hoff3 : off = 4096 ∨ off = 5376 ∨ off = 8192 := by
      simpa [FrmConverter.VIN_PATTERNS] using hoff
    rw [subarray_replicate]
    rcases hoff3 with h | h | h <;> subst h <;>
      exact isValidVin_replicate _ _ isVinChar_255 (by omega)
  exact ⟨⟨by simp, claim_C6.1 [73] 73 (by simp) (Or.inl rfl)⟩,
    ⟨server_extractVin_ceVinWBS,
     (claim_C6.2.2.2.1 _ _ server_extractVin_ceVinWBS).1⟩,
    ⟨hoffs, claim_C6.2.2.1 _ hoffs⟩⟩

/-- Counterexample to C6 as stated: seventeen 0xC1 bytes at offset 0x1000
    are accepted by the server scan — their high-bit-masked ascii decoding
    spells seventeen As — although the raw candidate fails the alphabet
    test at every position; the class scan (no masking) finds nothing in
    the same image. -/
theorem claim_C6_counterexample :
    Server.extractVin ceVinMasked = some (List.replicate 17 65) ∧
    isValidVin (subarray ceVinMasked 4096 (4096 + 17)) = false ∧
    FrmConverter.extractVIN ceVinMasked = none :=
  ⟨server_extractVin_ceVinMasked, ceVinMasked_raw_invalid,
   frm_extractVIN_ceVinMasked⟩

/-- Claim C7, amended: both extractors scan their fixed offsets in
    ascending order and accept only values strictly between 0 and
    1,000,000.  The server extractor decodes little-endian only, at the
    1024 offsets 0x2000, 0x2004, ..., 0x2FFC (each read must be in bounds —
    an out-of-bounds read throws, see C1); the `FrmConverter` extractor
    scans only the four offsets 0x2100, 0x2200, 0x2300, 0x2400 and
    additionally tries a big-endian reading at each (little-endian first);
    an accepted value is written little-endian at output offset 0x30 by
    both converters; absence results when every scanned reading is
    implausible (for the server: and in bounds). -/
theorem claim_C7 :
    (∀ (d : List Nat) (m : Nat), Server.extractMileage d = Except.ok (some m) →
      0 < m ∧ m < 1000000 ∧
      ∃ i, i < 1024 ∧ 8192 + 4 * i + 4 ≤ d.length ∧
        m = getUint32LE d (8192 + 4 * i) ∧
        ∀ j, j < i → ¬ (0 < getUint32LE d (8192 + 4 * j) ∧
          getUint32LE d (8192 + 4 * j) < 1000000))
    ∧ (∀ d : List Nat, (∀ i, i < 1024 → 8192 + 4 * i + 4 ≤ d.length ∧
        ¬ (0 < getUint32LE d (8192 + 4 * i) ∧ getUint32LE d (8192 + 4 * i) < 1000000)) →
        Server.extractMileage d = Except.ok none)
    ∧ (∀ (d : List Nat) (m : Nat), d.length = 32768 →
        FrmConverter.extractMileage d = some m →
        ∃ i, i < 4 ∧
          ((0 < getUint32LE d (FrmConverter.MILEAGE_OFFSETS.getD i 0) ∧
            getUint32LE d (FrmConverter.MILEAGE_OFFSETS.getD i 0) < 1000000 ∧
            m = getUint32LE d (FrmConverter.MILEAGE_OFFSETS.getD i 0)) ∨
           (¬ (0 < getUint32LE d (FrmConverter.MILEAGE_OFFSETS.getD i 0) ∧
               getUint32LE d (FrmConverter.MILEAGE_OFFSETS.getD i 0) < 1000000) ∧
            0 < getUint32BE d (FrmConverter.MILEAGE_OFFSETS.getD i 0) ∧
            getUint32BE d (FrmConverter.MILEAGE_OFFSETS.getD i 0) < 1000000 ∧
            m = getUint32BE d (FrmConverter.MILEAGE_OFFSETS.getD i 0))) ∧
          ∀ j, j < i →
            ¬ (0 < getUint32LE d (FrmConverter.MILEAGE_OFFSETS.getD j 0) ∧
               getUint32LE d (FrmConverter.MILEAGE_OFFSETS.getD j 0) < 1000000) ∧
            ¬ (0 < getUint32BE d (FrmConverter.MILEAGE_OFFSETS.getD j 0) ∧
               getUint32BE d (FrmConverter.MILEAGE_OFFSETS.getD j 0) < 1000000))
    ∧ (∀ (d : List Nat) (m : Nat), d.length = 32768 →
        FrmConverter.extractMileage d = some m →
        getUint32LE (FrmConverter.convertOutput d) 48 = m)
    ∧ (∀ (d : List Nat) (m : Nat), Server.extractMileage d = Except.ok (some m) →
        getUint32LE (Server.convertOutput d) 48 = m) := by
  refine ⟨?_, ?_, ?_, frm_out_mileage_readback, server_out_mileage_readback⟩
  · intro d m hm
    have hr := Server.extractMileage_bounds d m hm
    unfold Server.extractMileage at hm
    obtain ⟨i, hi, hin, hmeq, hprev⟩ := Server.mileageScan_spec d _ m hm
    rw [List.length_range'] at hi
    rw [range'_getD _ _ _ _ hi] at hin hmeq
    refine ⟨hr.1, hr.2, i, hi, hin, hmeq, fun j hj => ?_⟩
    have hpj := (hprev j hj).2
    rwa [range'_getD _ _ _ _ (by omega)] at hpj
  · intro d h
    apply server_extractMileage_none
    intro off hoff
    rw [List.mem_range'] at hoff
    obtain ⟨i, hi, hoffeq⟩ := hoff
    subst hoffeq
    exact h i hi
  · intro d m hlen hm
    unfold FrmConverter.extractMileage at hm
    obtain ⟨i, hi, hf, hprev⟩ := findSome?_first _ _ _ hm
    rw [show FrmConverter.MILEAGE_OFFSETS.length = 4 from rfl] at hi
    have hoffle : ∀ k, k < 4 → FrmConverter.MILEAGE_OFFSETS.getD k 0 + 4 ≤ 32768 := by
      intro k hk
      interval_cases k <;> decide
    refine ⟨i, hi, ?_, fun j hj => ?_⟩
    · rw [if_pos (by rw [hlen]; exact hoffle i hi)] at hf
      by_cases hcle : 0 < getUint32LE d (FrmConverter.MILEAGE_OFFSETS.getD i 0) ∧
          getUint32LE d (FrmConverter.MILEAGE_OFFSETS.getD i 0) < 1000000
      · rw [if_pos hcle] at hf
        cases hf
        exact Or.inl ⟨hcle.1, hcle.2, rfl⟩
      · rw [if_neg hcle] at hf
        by_cases hcbe : 0 < getUint32BE d (FrmConverter.MILEAGE_OFFSETS.getD i 0) ∧
            getUint32BE d (FrmConverter.MILEAGE_OFFSETS.getD i 0) < 1000000
        · rw [if_pos hcbe] at hf
          cases hf
          exact Or.inr ⟨hcle, hcbe.1, hcbe.2, rfl⟩
        · rw [if_neg hcbe] at hf
          cases hf
    · have hpj := hprev j hj
      rw [if_pos (by rw [hlen]; exact hoffle j (by omega))] at hpj
      by_cases hcle : 0 < getUint32LE d (FrmConverter.MILEAGE_OFFSETS.getD j 0) ∧
          getUint32LE d (FrmConverter.MILEAGE_OFFSETS.getD j 0) < 1000000
      · rw [if_pos hcle] at hpj
        cases hpj
      · rw [if_neg hcle] at hpj
        by_cases hcbe : 0 < getUint32BE d (FrmConverter.MILEAGE_OFFSETS.getD j 0) ∧
            getUint32BE d (FrmConverter.MILEAGE_OFFSETS.getD j 0) < 1000000
        · rw [if_pos hcbe] at hpj
          cases hpj
        · exact ⟨hcle, hcbe⟩

/-- Witness for C7: a little-endian 123456 at the first server offset is
    extracted and written back at 0x30; the class converter's big-endian
    acceptance on `ceMileageBE` is likewise written back. -/
theorem claim_C7_witness :
    Server.extractMileage ceMileageLE = Except.ok (some 123456)
    ∧ getUint32LE (Server.convertOutput ceMileageLE) 48 = 123456
    ∧ ceMileageBE.length = 32768
    ∧ FrmConverter.extractMileage ceMileageBE = some 1
    ∧ getUint32LE (FrmConverter.convertOutput ceMileageBE) 48 = 1 :=
  ⟨server_extractMileage_ceMileageLE,
   claim_C7.2.2.2.2 _ _ server_extractMileage_ceMileageLE,
   ceMileageBE_length,
   frm_extractMileage_ceMileageBE,
   claim_C7.2.2.2.1 _ _ ceMileageBE_length frm_extractMileage_ceMileageBE⟩

/-- Counterexample to C7 as stated: on `ceMileageBE` no scanned offset of
    the class extractor decodes to a plausible little-endian value, yet the
    extractor returns 1 (the big-endian reading of the first offset) rather
    than absence. -/
theorem claim_C7_counterexample :
    FrmConverter.extractMileage ceMileageBE = some 1 ∧
    ¬ (0 < getUint32LE ceMileageBE 8448 ∧ getUint32LE ceMileageBE 8448 < 1000000) ∧
    ¬ (0 < getUint32LE ceMileageBE 8704 ∧ getUint32LE ceMileageBE 8704 < 1000000) ∧
    ¬ (0 < getUint32LE ceMileageBE 8960 ∧ getUint32LE ceMileageBE 8960 < 1000000) ∧
    ¬ (0 < getUint32LE ceMileageBE 9216 ∧ getUint32LE ceMileageBE 9216 < 1000000) :=
  ⟨frm_extractMileage_ceMileageBE,
   by rw [ceMileageBE_le_8448]; omega,
   by rw [ceMileageBE_le_rest 8704 (Or.inl rfl)]; omega,
   by rw [ceMileageBE_le_rest 8960 (Or.inr (Or.inl rfl))]; omega,
   by rw [ceMileageBE_le_rest 9216 (Or.inr (Or.inr rfl))]; omega⟩

/-- Marker token at the start of the first signature window. -/
def ceMarkerWin1 : List Nat := writeBytes (List.replicate 32768 255) 256 xeq384

theorem ceMarkerWin1_win1 :
    subarray ceMarkerWin1 256 272 = xeq384 ++ List.replicate 10 255 := by
  unfold ceMarkerWin1
  rw [show (272 : Nat) = 256 + xeq384.length + 10 from by rw [xeq384_length]]
  exact subarray_splice_overlap _ _ _ _ _ (by rw [xeq384_length]; omega)

theorem ceMarkerWin1_contains :
    containsSeq (subarray ceMarkerWin1 256 272) (asciiBytes "XEQ384") = true := by
  rw [ceMarkerWin1_win1]
  decide

/-- Claim C8, amended: the server detector consults only the window
    `[256, 272)` (the second window `[512, 528)` is extracted but never
    used) plus the length test, checking XEQ384 before XET512; with no
    marker in the first window a 32768-byte image yields "FRM3 Unknown" and
    any other length yields "FRM2".  (The `FrmConverter` detector instead
    searches the whole image, see the counterexample.) -/
theorem claim_C8 :
    (∀ d1 d2 : List Nat, subarray d1 256 272 = subarray d2 256 272 →
      (d1.length = 32768 ↔ d2.length = 32768) →
      Server.detectFrmType d1 = Server.detectFrmType d2)
    ∧ (∀ d : List Nat,
        containsSeq (subarray d 256 272) (asciiBytes "XEQ384") = true →
        Server.detectFrmType d = "FRM3 XEQ384")
    ∧ (∀ d : List Nat, d.length = 32768 →
        containsSeq (subarray d 256 272) (asciiBytes "XEQ384") = false →
        containsSeq (subarray d 256 272) (asciiBytes "XET512") = false →
        Server.detectFrmType d = "FRM3 Unknown")
    ∧ (∀ d : List Nat, d.length ≠ 32768 →
        containsSeq (subarray d 256 272) (asciiBytes "XEQ384") = false →
        containsSeq (subarray d 256 272) (asciiBytes "XET512") = false →
        Server.detectFrmType d = "FRM2") :=
  ⟨server_detect_window1_only, server_detect_xeq, server_detect_unknown,
   server_detect_frm2⟩

/-- Witness for C8 on concrete images. -/
theorem claim_C8_witness :
    Server.detectFrmType (List.replicate 32768 0) =
      Server.detectFrmType (List.replicate 32768 0)
    ∧ containsSeq (subarray (List.replicate 32768 0) 256 272) (asciiBytes "XEQ384") = false
    ∧ Server.detectFrmType (List.replicate 32768 0) = "FRM3 Unknown"
    ∧ Server.detectFrmType (List.replicate 100 0) = "FRM2"
    ∧ containsSeq (subarray ceMarkerWin1 256 272) (asciiBytes "XEQ384") = true
    ∧ Server.detectFrmType ceMarkerWin1 = "FRM3 XEQ384" := by
  have hwin0 : subarray (List.replicate 32768 (0 : Nat)) 256 272 =
      List.replicate 16 0 := by
    rw [subarray_replicate, show min (272 - 256) (32768 - 256) = 16 from by omega]
  have hwin100 : subarray (List.replicate 100 (0 : Nat)) 256 272 =
      List.replicate 0 0 := by
    rw [subarray_replicate, show min (272 - 256) (100 - 256) = 0 from by omega]
  refine ⟨claim_C8.1 _ _ rfl Iff.rfl, ?_, ?_, ?_, ceMarkerWin1_contains, ?_⟩
  · rw [hwin0]
    decide
  · exact claim_C8.2.2.1 _ (List.length_replicate ..)
      (by rw [hwin0]; decide) (by rw [hwin0]; decide)
  · exact claim_C8.2.2.2 _ (by rw [List.length_replicate]; omega)
      (by rw [hwin100]; decide) (by rw [hwin100]; decide)
  · exact claim_C8.2.1 _ ceMarkerWin1_contains

/-- Counterexample to C8 as stated: a marker inside the second window
    `[512, 528)` is ignored by the server detector (it answers
    "FRM3 Unknown"), and the `FrmConverter` detector recognises a marker
    placed at offset 0, outside both windows. -/
theorem claim_C8_counterexample :
    containsSeq (subarray ceMarkerWin2 512 528) (asciiBytes "XEQ384") = true ∧
    ceMarkerWin2.length = 32768 ∧
    Server.detectFrmType ceMarkerWin2 = "FRM3 Unknown" ∧
    containsSeq (subarray ceMarkerAt0 256 272) (asciiBytes "XEQ384") = false ∧
    containsSeq (subarray ceMarkerAt0 512 528) (asciiBytes "XEQ384") = false ∧
    containsSeq (subarray ceMarkerAt0 256 272) (asciiBytes "XET512") = false ∧
    containsSeq (subarray ceMarkerAt0 512 528) (asciiBytes "XET512") = false ∧
    ceMarkerAt0.length = 32768 ∧
    FrmConverter.detectFRMType ceMarkerAt0 = "FRM3 XEQ384" :=
  ⟨ceMarkerWin2_win2_contains, ceMarkerWin2_length, server_detect_ceMarkerWin2,
   by rw [ceMarkerAt0_win1]; decide, by rw [ceMarkerAt0_win2]; decide,
   by rw [ceMarkerAt0_win1]; decide, by rw [ceMarkerAt0_win2]; decide,
   ceMarkerAt0_length, frm_detect_ceMarkerAt0⟩

/-- Claim C9, amended: the `FrmConverter` category lookup falls back to
    "BMW (Unknown Model)" for unmapped prefixes (never absence), while the
    bundled server's lookup maps only WBA, WBY and 5UX and yields absence
    otherwise; the production year is looked up from the character at
    0-indexed position 9 in the server's static table (1–9, A–F) and an
    unmapped character yields absence. -/
theorem claim_C9 :
    (∀ d v : List Nat, FrmConverter.extractVIN d = some v →
      (∀ lbl, FrmConverter.modelMap (v.take 3) = some lbl →
        FrmConverter.extractModel d = some lbl) ∧
      (FrmConverter.modelMap (v.take 3) = none →
        FrmConverter.extractModel d = some "BMW (Unknown Model)"))
    ∧ (∀ d v : List Nat, Server.extractVin d = some v →
        Server.extractYear d = Server.yearMap (v.getD 9 0))
    ∧ (∀ c y : Nat, Server.yearMap c = some y →
        c = 49 ∨ c = 50 ∨ c = 51 ∨ c = 52 ∨ c = 53 ∨ c = 54 ∨ c = 55 ∨ c = 56 ∨
        c = 57 ∨ c = 65 ∨ c = 66 ∨ c = 67 ∨ c = 68 ∨ c = 69 ∨ c = 70)
    ∧ (∀ d v : List Nat, Server.extractVin d = some v →
        v.take 3 ≠ asciiBytes "WBA" → v.take 3 ≠ asciiBytes "WBY" →
        v.take 3 ≠ asciiBytes "5UX" → Server.extractModel d = none) := by
  refine ⟨?_, server_extractYear_eq, ?_, server_extractModel_unmapped⟩
  · intro d v hv
    constructor
    · intro lbl hlbl
      rw [frm_extractModel_some d v hv, hlbl, Option.getD_some]
    · intro hnone
      rw [frm_extractModel_some d v hv, hnone, Option.getD_none]
  · intro c y hy
    by_contra hcon
    push_neg at hcon
    obtain ⟨n1, n2, n3, n4, n5, n6, n7, n8, n9, n10, n11, n12, n13, n14, n15⟩ := hcon
    unfold Server.yearMap at hy
    rw [if_neg n1, if_neg n2, if_neg n3, if_neg n4, if_neg n5, if_neg n6, if_neg n7,
      if_neg n8, if_neg n9, if_neg n10, if_neg n11, if_neg n12, if_neg n13,
      if_neg n14, if_neg n15] at hy
    cases hy

/-- Witness for C9 on `ceVinWBS`: the class converter maps WBS to a label
    while the server's year table maps the year character 7 to 2007. -/
theorem claim_C9_witness :
    FrmConverter.extractVIN ceVinWBS = some vinWBS ∧
    FrmConverter.modelMap (vinWBS.take 3) = some "BMW M Series" ∧
    FrmConverter.extractModel ceVinWBS = some "BMW M Series" ∧
    Server.extractVin ceVinWBS = some vinWBS ∧
    Server.extractYear ceVinWBS = Server.yearMap (vinWBS.getD 9 0) ∧
    Server.yearMap (vinWBS.getD 9 0) = some 2007 :=
  ⟨frm_extractVIN_ceVinWBS, by decide,
   (claim_C9.1 _ _ frm_extractVIN_ceVinWBS).1 _ (by decide),
   server_extractVin_ceVinWBS,
   claim_C9.2.1 _ _ server_extractVin_ceVinWBS,
   by decide⟩

/-- Counterexample to C9 as stated: the valid identifier WBS12345678901234
    is found by the server scan, its prefix WBS is unmapped there, and the
    category lookup yields absence — not the claimed generic fallback
    label. -/
theorem claim_C9_counterexample :
    Server.extractVin ceVinWBS = some vinWBS ∧
    isValidVin vinWBS = true ∧
    Server.extractModel ceVinWBS = none :=
  ⟨server_extractVin_ceVinWBS, vinWBS_valid, server_extractModel_ceVinWBS⟩

